import Mathlib

/-!
# Verification of the interview-chatbot backend (`backend/server.js`)

A shallow embedding of the data model and operations of the interview
backend.  JavaScript objects become Lean structures, JS `null`/absent
values become `Option`, JS arrays become `List`, and JS numbers become
`ℚ` (or `Nat`/`Int` where the code only ever stores such values).  The
external LLM is modelled as an oracle record supplying the parsed output
of each classifier call of a turn.  File persistence is modelled by
explicit state passing (catalog list, global graph files).
-/

namespace TkcChatbot

/-! ## First-seen deduplication (JS `Array.from(new Set(xs))`) -/

/-- Walk the list keeping the first occurrence of each element: the
insertion-order set semantics of the JavaScript `Set`. -/
def dedupFirstAux {α : Type} [DecidableEq α] (seen : List α) : List α → List α
  | [] => []
  | x :: xs => if x ∈ seen then dedupFirstAux seen xs
               else x :: dedupFirstAux (x :: seen) xs

/-- First-seen deduplication of a list, as performed by the JavaScript
idiom `Array.from(new Set(xs))`: the first occurrence of each element is
kept, in order; later duplicates are dropped. -/
def dedupFirst {α : Type} [DecidableEq α] (l : List α) : List α :=
  dedupFirstAux [] l

theorem dedupFirstAux_congr {α : Type} [DecidableEq α] :
    ∀ (xs seen seen' : List α), (∀ a, a ∈ seen ↔ a ∈ seen') →
      dedupFirstAux seen xs = dedupFirstAux seen' xs
  | [], _, _, _ => rfl
  | x :: xs, seen, seen', h => by
    by_cases hx : x ∈ seen
    · rw [dedupFirstAux, dedupFirstAux, if_pos hx, if_pos ((h x).mp hx)]
      exact dedupFirstAux_congr xs seen seen' h
    · rw [dedupFirstAux, dedupFirstAux, if_neg hx, if_neg (fun hx' => hx ((h x).mpr hx'))]
      refine congrArg (x :: ·) (dedupFirstAux_congr xs (x :: seen) (x :: seen') ?_)
      intro a
      simp only [List.mem_cons]
      exact or_congr Iff.rfl (h a)

theorem dedupFirstAux_cons_filter {α : Type} [DecidableEq α] :
    ∀ (xs : List α) (x : α) (seen : List α),
      dedupFirstAux (x :: seen) xs = dedupFirstAux seen (xs.filter (fun y => y ≠ x))
  | [], _, _ => rfl
  | y :: ys, x, seen => by
    by_cases hyx : y = x
    · subst hyx
      rw [dedupFirstAux, if_pos (by simp), List.filter_cons_of_neg (by simp)]
      exact dedupFirstAux_cons_filter ys y seen
    · rw [List.filter_cons_of_pos (by simpa using hyx)]
      by_cases hy : y ∈ seen
      · rw [dedupFirstAux, if_pos (by simp [hy]), dedupFirstAux, if_pos hy]
        exact dedupFirstAux_cons_filter ys x seen
      · rw [dedupFirstAux, if_neg (by simp [hy, hyx]), dedupFirstAux, if_neg hy]
        refine congrArg (y :: ·) ?_
        rw [dedupFirstAux_congr ys (y :: x :: seen) (x :: y :: seen)
          (by intro a; simp only [List.mem_cons]; tauto)]
        exact dedupFirstAux_cons_filter ys x (y :: seen)

theorem dedupFirst_nil {α : Type} [DecidableEq α] :
    dedupFirst ([] : List α) = [] := rfl

theorem dedupFirst_cons {α : Type} [DecidableEq α] (x : α) (xs : List α) :
    dedupFirst (x :: xs) = x :: dedupFirst (xs.filter (fun y => y ≠ x)) := by
  unfold dedupFirst
  rw [dedupFirstAux, if_neg (by simp)]
  exact congrArg (x :: ·) (dedupFirstAux_cons_filter xs x [])

theorem filter_filter_self {α : Type} (p : α → Bool) (l : List α) :
    (l.filter p).filter p = l.filter p := by
  induction l with
  | nil => simp
  | cons x xs ih =>
    by_cases h : p x <;> simp [List.filter_cons, h, ih]

theorem filter_eq_self_of_not_mem {α : Type} [DecidableEq α] (a : α) (l : List α)
    (h : a ∉ l) : l.filter (fun y => y ≠ a) = l := by
  refine List.filter_eq_self.mpr ?_
  intro y hy
  exact decide_eq_true (fun e => h (e ▸ hy))

/-- `dedupFirst` commutes with `filter`. -/
theorem dedupFirst_filter {α : Type} [DecidableEq α] (p : α → Bool) :
    ∀ (l : List α), (dedupFirst l).filter p = dedupFirst (l.filter p)
  | [] => rfl
  | x :: xs => by
    rw [dedupFirst_cons]
    by_cases hp : p x
    · have ih := dedupFirst_filter p (xs.filter (fun y => y ≠ x))
      rw [List.filter_cons_of_pos hp, List.filter_cons_of_pos hp, dedupFirst_cons,
        ih, List.filter_comm]
    · have ih := dedupFirst_filter p (xs.filter (fun y => y ≠ x))
      rw [List.filter_cons_of_neg hp, List.filter_cons_of_neg hp, ih, List.filter_comm]
      have hx : x ∉ xs.filter p := by
        intro hmem
        exact hp (List.of_mem_filter hmem)
      rw [filter_eq_self_of_not_mem x (xs.filter p) hx]
  termination_by l => l.length
  decreasing_by
    all_goals
      simp only [List.length_cons]
      exact Nat.lt_succ_of_le (List.length_filter_le _ _)

/-- Deduplicating the left part of a concatenation first does not change
the first-seen deduplication of the whole. -/
theorem dedupFirst_append_left {α : Type} [DecidableEq α] :
    ∀ (l m : List α), dedupFirst (dedupFirst l ++ m) = dedupFirst (l ++ m)
  | [], m => rfl
  | x :: xs, m => by
    rw [dedupFirst_cons, List.cons_append, List.cons_append, dedupFirst_cons,
      dedupFirst_cons, List.filter_append, List.filter_append,
      dedupFirst_filter, filter_filter_self]
    have ih := dedupFirst_append_left (xs.filter (fun y => y ≠ x))
      (m.filter (fun y => y ≠ x))
    rw [ih]
  termination_by l _ => l.length
  decreasing_by
    simp only [List.length_cons]
    exact Nat.lt_succ_of_le (List.length_filter_le _ _)

theorem dedupFirst_idem {α : Type} [DecidableEq α] (l : List α) :
    dedupFirst (dedupFirst l) = dedupFirst l := by
  have h := dedupFirst_append_left l []
  simpa using h

/-- Deduplicating the right part of a concatenation first does not change
the first-seen deduplication of the whole. -/
theorem dedupFirst_append_right {α : Type} [DecidableEq α] :
    ∀ (l m : List α), dedupFirst (l ++ dedupFirst m) = dedupFirst (l ++ m)
  | [], m => by simpa using dedupFirst_idem m
  | x :: xs, m => by
    rw [List.cons_append, List.cons_append, dedupFirst_cons, dedupFirst_cons,
      List.filter_append, List.filter_append, dedupFirst_filter]
    have ih := dedupFirst_append_right (xs.filter (fun y => y ≠ x))
      (m.filter (fun y => y ≠ x))
    rw [ih]
  termination_by l _ => l.length
  decreasing_by
    simp only [List.length_cons]
    exact Nat.lt_succ_of_le (List.length_filter_le _ _)

/-- Appending elements that already occur does not change the
first-seen deduplication. -/
theorem dedupFirst_append_subset {α : Type} [DecidableEq α] :
    ∀ (l m : List α), (∀ x ∈ m, x ∈ l) → dedupFirst (l ++ m) = dedupFirst l
  | [], m, h => by
    cases m with
    | nil => simp
    | cons y ys => exact absurd (h y (by simp)) (by simp)
  | x :: xs, m, h => by
    rw [List.cons_append, dedupFirst_cons, dedupFirst_cons, List.filter_append]
    have hsub : ∀ y ∈ m.filter (fun y => y ≠ x), y ∈ xs.filter (fun y => y ≠ x) := by
      intro y hy
      have hym := List.of_mem_filter hy
      have hmem := List.mem_of_mem_filter hy
      have hyx : y ≠ x := by simpa using hym
      have : y ∈ x :: xs := h y hmem
      rcases List.mem_cons.mp this with h1 | h2
      · exact absurd h1 hyx
      · exact List.mem_filter.mpr ⟨h2, by simpa using hyx⟩
    have ih := dedupFirst_append_subset (xs.filter (fun y => y ≠ x))
      (m.filter (fun y => y ≠ x)) hsub
    rw [ih]
  termination_by l _ _ => l.length
  decreasing_by
    simp only [List.length_cons]
    exact Nat.lt_succ_of_le (List.length_filter_le _ _)

/-! ## Fact sets and `mergeFacts` (server.js lines 759-770)

JS fact objects have fields that may be absent or `null` (both behave as
`null` under the code's `!= null` tests), so every field is an `Option`.
JS numbers are modelled as `Int`; no property proved below depends on
the numeric contents of the scalar fields. -/

structure FactSet where
  exam_type : Option String := none
  prep_weeks : Option Int := none
  hours_per_week : Option Int := none
  difficulty_1_5 : Option Int := none
  strategies : Option (List String) := none
  materials : Option (List String) := none
  pitfalls : Option (List String) := none
  tips : Option (List String) := none
  deriving DecidableEq, Repr

/-- The merged value of one list-valued fact field:
`Array.from(new Set([...a, ...b].filter(Boolean)))` where a missing or
null field is treated as `[]`.  `filter(Boolean)` drops the only falsy
string, `""`. -/
def listMerge (a b : Option (List String)) : List String :=
  dedupFirst ((a.getD [] ++ b.getD []).filter (fun s => s ≠ ""))

/-- `mergeFacts` (server.js lines 759-770): scalar fields are taken from
`add` when non-null, otherwise kept from `base`; list fields become the
first-seen deduplicated union of the two (after dropping falsy strings),
and are always present in the result. -/
def mergeFacts (base add : FactSet) : FactSet where
  exam_type := match add.exam_type with
    | some v => some v
    | none => base.exam_type
  prep_weeks := match add.prep_weeks with
    | some v => some v
    | none => base.prep_weeks
  hours_per_week := match add.hours_per_week with
    | some v => some v
    | none => base.hours_per_week
  difficulty_1_5 := match add.difficulty_1_5 with
    | some v => some v
    | none => base.difficulty_1_5
  strategies := some (listMerge base.strategies add.strategies)
  materials := some (listMerge base.materials add.materials)
  pitfalls := some (listMerge base.pitfalls add.pitfalls)
  tips := some (listMerge base.tips add.tips)

/-- The list-field union as the specification's words describe it
("deduplicated union preserving first-seen order"), with no dropping of
empty strings.  Used only to compare the code against the spec. -/
def specListUnion (a b : List String) : List String :=
  dedupFirst (a ++ b)

theorem listMerge_assoc (a b c : Option (List String)) :
    listMerge (some (listMerge a b)) c = listMerge a (some (listMerge b c)) := by
  unfold listMerge
  simp only [Option.getD_some, List.filter_append, dedupFirst_filter, filter_filter_self]
  rw [dedupFirst_append_left, dedupFirst_append_right, List.append_assoc]

theorem listMerge_absorb (a b : Option (List String)) :
    listMerge (some (listMerge a b)) b = listMerge a b := by
  unfold listMerge
  simp only [Option.getD_some, List.filter_append, dedupFirst_filter, filter_filter_self]
  rw [dedupFirst_append_left]
  exact dedupFirst_append_subset _ _ (fun x hx => List.mem_append_right _ hx)

/-- Merging the same delta twice changes nothing beyond the first merge. -/
theorem mergeFacts_merge_self (a f : FactSet) :
    mergeFacts (mergeFacts a f) f = mergeFacts a f := by
  unfold mergeFacts
  simp only [FactSet.mk.injEq, Option.some.injEq, listMerge_absorb, and_true, true_and]
  refine ⟨?_, ?_, ?_, ?_⟩
  · cases f.exam_type <;> rfl
  · cases f.prep_weeks <;> rfl
  · cases f.hours_per_week <;> rfl
  · cases f.difficulty_1_5 <;> rfl

/-! ## Catalog fuzzy match: `norm`, `dice`, `tokenJacc`, `score`
(server.js lines 113-135)

`norm` lowercases, folds German umlauts to ASCII, replaces every
character outside the letter/digit/whitespace/hyphen classes by a space,
collapses whitespace and trims.  The JS Unicode classes `\p{L}`/`\p{N}`
and Unicode lowercasing are approximated by the ASCII classes plus the
German umlauts; none of the properties proved below depends on the
character classes. -/

def toLowerGerman (c : Char) : Char :=
  if c = 'Ä' then 'ä' else if c = 'Ö' then 'ö'
  else if c = 'Ü' then 'ü' else c.toLower

def foldUmlaut (c : Char) : List Char :=
  if c = 'ä' then ['a', 'e'] else if c = 'ö' then ['o', 'e']
  else if c = 'ü' then ['u', 'e'] else if c = 'ß' then ['s', 's'] else [c]

def keepOrSpace (c : Char) : Char :=
  if c.isAlpha ∨ c.isDigit ∨ c.isWhitespace ∨ c = '-' then c else ' '

/-- `norm` (server.js line 113): normalisation used by the fuzzy matcher. -/
def norm (s : String) : String :=
  let cs := ((s.toList.map toLowerGerman).flatMap foldUmlaut).map keepOrSpace
  String.intercalate " " (((String.mk cs).split (·.isWhitespace)).filter (fun t => t ≠ ""))

/-- Character bigrams of the normalised string (`bg` inside `dice`). -/
def bigrams (s : String) : List (Char × Char) :=
  let t := (norm s).toList
  t.zip t.tail

/-- The multiset-intersection count computed by the count-map loop inside
`dice`: walk `B`, and for each element still available in the remaining
copy of `A`, consume one occurrence and count it. -/
def interCount (A B : List (Char × Char)) : Nat :=
  (B.foldl
    (fun st x => if x ∈ st.1 then (st.1.erase x, st.2 + 1) else st)
    (A, 0)).2

/-- `dice` (server.js lines 117-123): Sørensen-Dice coefficient over
bigram multisets of the normalised strings. -/
def dice (a b : String) : ℚ :=
  if bigrams a = [] ∨ bigrams b = [] then 0
  else (2 * (interCount (bigrams a) (bigrams b) : ℚ))
    / (((bigrams a).length : ℚ) + ((bigrams b).length : ℚ))

/-- Token set of the normalised string (`new Set(norm(x).split(" ").filter(Boolean))`). -/
def tokens (s : String) : Finset String :=
  (((norm s).splitOn " ").filter (fun t => t ≠ "")).toFinset

/-- `tokenJacc` (server.js lines 124-129): Jaccard index of the token sets. -/
def tokenJacc (a b : String) : ℚ :=
  if (tokens a).card + (tokens b).card - ((tokens a) ∩ (tokens b)).card = 0 then 0
  else (((tokens a) ∩ (tokens b)).card : ℚ)
    / (((tokens a).card + (tokens b).card - ((tokens a) ∩ (tokens b)).card : Nat) : ℚ)

/-- `score` (server.js line 130): the fuzzy match score. -/
def score (query title : String) : ℚ :=
  0.6 * dice query title + 0.4 * tokenJacc query title

/-! ### Bounds for `dice` -/

theorem interCount_loop_le_acc_add :
    ∀ (B : List (Char × Char)) (rem : List (Char × Char)) (n : Nat),
      (B.foldl (fun st x => if x ∈ st.1 then (st.1.erase x, st.2 + 1) else st)
        (rem, n)).2 ≤ n + B.length
  | [], _, n => by simp
  | x :: B, rem, n => by
    simp only [List.foldl_cons, List.length_cons]
    by_cases hx : x ∈ rem
    · simp only [hx, if_pos]
      calc (B.foldl _ (rem.erase x, n + 1)).2 ≤ (n + 1) + B.length :=
              interCount_loop_le_acc_add B (rem.erase x) (n + 1)
        _ = n + (B.length + 1) := by omega
    · simp only [hx, if_neg, not_false_eq_true]
      calc (B.foldl _ (rem, n)).2 ≤ n + B.length :=
              interCount_loop_le_acc_add B rem n
        _ ≤ n + (B.length + 1) := by omega

theorem interCount_loop_le_rem :
    ∀ (B : List (Char × Char)) (rem : List (Char × Char)) (n : Nat),
      (B.foldl (fun st x => if x ∈ st.1 then (st.1.erase x, st.2 + 1) else st)
        (rem, n)).2 ≤ n + rem.length
  | [], _, n => by simp
  | x :: B, rem, n => by
    simp only [List.foldl_cons]
    by_cases hx : x ∈ rem
    · simp only [hx, if_pos]
      have hlen : (rem.erase x).length = rem.length - 1 := List.length_erase_of_mem hx
      have hpos : 1 ≤ rem.length := List.length_pos.mpr (List.ne_nil_of_mem hx)
      calc (B.foldl _ (rem.erase x, n + 1)).2 ≤ (n + 1) + (rem.erase x).length :=
              interCount_loop_le_rem B (rem.erase x) (n + 1)
        _ ≤ n + rem.length := by omega
    · simp only [hx, if_neg, not_false_eq_true]
      exact interCount_loop_le_rem B rem n

theorem interCount_le_left (A B : List (Char × Char)) :
    interCount A B ≤ A.length := by
  have h := interCount_loop_le_rem B A 0
  simpa [interCount] using h

theorem interCount_le_right (A B : List (Char × Char)) :
    interCount A B ≤ B.length := by
  have h := interCount_loop_le_acc_add B A 0
  simpa [interCount] using h

theorem dice_nonneg (a b : String) : 0 ≤ dice a b := by
  unfold dice
  by_cases h : bigrams a = [] ∨ bigrams b = []
  · simp [h]
  · simp only [h, if_neg, not_false_eq_true]
    apply div_nonneg
    · positivity
    · positivity

theorem dice_le_one (a b : String) : dice a b ≤ 1 := by
  unfold dice
  by_cases h : bigrams a = [] ∨ bigrams b = []
  · simp [h]
  · simp only [h, if_neg, not_false_eq_true]
    push_neg at h
    have hA : 0 < (bigrams a).length := List.length_pos.mpr h.1
    have hB : 0 < (bigrams b).length := List.length_pos.mpr h.2
    rw [div_le_one (by positivity)]
    have h1 : interCount (bigrams a) (bigrams b) ≤ (bigrams a).length :=
      interCount_le_left _ _
    have h2 : interCount (bigrams a) (bigrams b) ≤ (bigrams b).length :=
      interCount_le_right _ _
    have : 2 * interCount (bigrams a) (bigrams b)
        ≤ (bigrams a).length + (bigrams b).length := by omega
    calc (2 : ℚ) * (interCount (bigrams a) (bigrams b) : ℚ)
        = ((2 * interCount (bigrams a) (bigrams b) : Nat) : ℚ) := by push_cast; ring
      _ ≤ (((bigrams a).length + (bigrams b).length : Nat) : ℚ) := by
            exact_mod_cast Nat.cast_le.mpr this
      _ = ((bigrams a).length : ℚ) + ((bigrams b).length : ℚ) := by push_cast; ring

/-! ### Bounds and symmetry for `tokenJacc` -/

theorem tokenJacc_nonneg (a b : String) : 0 ≤ tokenJacc a b := by
  unfold tokenJacc
  by_cases h : (tokens a).card + (tokens b).card - ((tokens a) ∩ (tokens b)).card = 0
  · simp [h]
  · simp only [h, if_neg, not_false_eq_true]
    positivity

theorem tokenJacc_le_one (a b : String) : tokenJacc a b ≤ 1 := by
  unfold tokenJacc
  by_cases h : (tokens a).card + (tokens b).card - ((tokens a) ∩ (tokens b)).card = 0
  · simp [h]
  · simp only [h, if_neg, not_false_eq_true]
    have hinterA : ((tokens a) ∩ (tokens b)).card ≤ (tokens a).card :=
      Finset.card_le_card Finset.inter_subset_left
    have hinterB : ((tokens a) ∩ (tokens b)).card ≤ (tokens b).card :=
      Finset.card_le_card Finset.inter_subset_right
    have hle : ((tokens a) ∩ (tokens b)).card
        ≤ (tokens a).card + (tokens b).card - ((tokens a) ∩ (tokens b)).card := by
      omega
    have hpos : (0 : ℚ)
        < (((tokens a).card + (tokens b).card - ((tokens a) ∩ (tokens b)).card : Nat) : ℚ) := by
      exact_mod_cast Nat.pos_of_ne_zero h
    rw [div_le_one hpos]
    exact_mod_cast Nat.cast_le.mpr hle

theorem tokenJacc_symm (a b : String) : tokenJacc a b = tokenJacc b a := by
  unfold tokenJacc
  rw [Finset.inter_comm (tokens a) (tokens b), Nat.add_comm (tokens a).card]

/-! ## `cleanTitle` (server.js lines 136-138)

`cleanTitle` removes every occurrence of the regex
`\s*\[T-[A-Z0-9-]+\]\s*` and trims the result.  The regex is embedded as
a character-level scanner with the same leftmost, maximal-munch
semantics. -/

def isTlIdChar (c : Char) : Bool := c.isUpper || c.isDigit || c = '-'

/-- Try to match `\s*\[T-[A-Z0-9-]+\]\s*` at the head of `cs`; on success
return the remainder after the match. -/
def matchBracketId (cs : List Char) : Option (List Char) :=
  match cs.dropWhile (·.isWhitespace) with
  | '[' :: 'T' :: '-' :: rest =>
    if (rest.takeWhile isTlIdChar).isEmpty then none
    else
      match rest.dropWhile isTlIdChar with
      | ']' :: rest2 => some (rest2.dropWhile (·.isWhitespace))
      | _ => none
  | _ => none

theorem matchBracketId_length {cs r : List Char} (h : matchBracketId cs = some r) :
    r.length < cs.length := by
  unfold matchBracketId at h
  have hws : (cs.dropWhile (·.isWhitespace)).length ≤ cs.length :=
    (cs.dropWhile_sublist (·.isWhitespace)).length_le
  split at h
  case _ rest heq =>
    split at h
    · exact absurd h (by simp)
    case _ hne =>
      split at h
      case _ rest2 heq2 =>
        have h2 : r = rest2.dropWhile (·.isWhitespace) := by
          injection h with h'
          exact h'.symm
        have hr2 : r.length ≤ rest2.length := by
          rw [h2]; exact (rest2.dropWhile_sublist (·.isWhitespace)).length_le
        have hdw : (rest.dropWhile isTlIdChar).length = rest2.length + 1 := by
          rw [heq2]; simp
        have htk : 1 ≤ (rest.takeWhile isTlIdChar).length := by
          cases hE : rest.takeWhile isTlIdChar with
          | nil => exact absurd (by simp [hE]) hne
          | cons y ys => simp
        have hsplit : (rest.takeWhile isTlIdChar).length
            + (rest.dropWhile isTlIdChar).length = rest.length := by
          conv_rhs => rw [← List.takeWhile_append_dropWhile isTlIdChar rest]
          rw [List.length_append]
        have hlen : rest.length + 3 = (cs.dropWhile (·.isWhitespace)).length := by
          rw [heq]; simp only [List.length_cons]
        omega
      · exact absurd h (by simp)
  · exact absurd h (by simp)

/-- The global-replace loop of `cleanTitle`: at every position, either a
bracketed id (with surrounding whitespace) matches and is dropped, or
one character is kept. -/
def cleanTitleAux : List Char → List Char
  | [] => []
  | c :: cs =>
    match h : matchBracketId (c :: cs) with
    | some rest => cleanTitleAux rest
    | none => c :: cleanTitleAux cs
  termination_by l => l.length
  decreasing_by
    all_goals first
      | exact matchBracketId_length h
      | (simp only [List.length_cons]; omega)

/-- Whitespace trim of both ends (the JS `String.prototype.trim`),
implemented on the character list. -/
def jsTrim (s : String) : String :=
  String.mk (((s.toList.dropWhile (·.isWhitespace)).reverse.dropWhile
    (·.isWhitespace)).reverse)

/-- `cleanTitle` (server.js line 136): strip bracketed `[T-…]` ids and trim. -/
def cleanTitle (title : String) : String :=
  jsTrim (String.mk (cleanTitleAux title.toList))

/-! ## Knowledge store (server.js lines 700-824)

Timestamps are omitted from the model: they are fresh on every call and
carry no information relevant to the claims.  The two global graph files
are modelled as the list of JSON-LD documents (the JSON array file) and
the list of appended Turtle blocks (whose concatenation is the `.ttl`
stream file). -/

structure JsonLD where
  id : String
  name : String
  examType : Option String
  difficulty : Option Int
  prepWeeks : Option Int
  hoursPerWeek : Option Int
  strategy : List String
  material : List String
  pitfall : List String
  tip : List String
  evidence : String
  deriving DecidableEq, Repr

/-- `toJSONLD` (server.js lines 701-731); the constant `@context` object
is the same for every document and is omitted. -/
def toJSONLD (tlId tlTitle sessionId : String) (facts : FactSet) : JsonLD where
  id := "http://example.org/wi-ontology#"
    ++ (if tlId = "" then (norm tlTitle).replace " " "_" else tlId)
  name := tlTitle
  examType := facts.exam_type
  difficulty := facts.difficulty_1_5
  prepWeeks := facts.prep_weeks
  hoursPerWeek := facts.hours_per_week
  strategy := facts.strategies.getD []
  material := facts.materials.getD []
  pitfall := facts.pitfalls.getD []
  tip := facts.tips.getD []
  evidence := sessionId

/-- First pass of `esc`: `replace(/\\/g, "\\\\")` — the pattern is a
single character, so the global replace is a per-character expansion. -/
def escBackslash : List Char → List Char
  | [] => []
  | c :: cs => if c = '\\' then '\\' :: '\\' :: escBackslash cs
               else c :: escBackslash cs

/-- Second pass of `esc`: `replace(/"/g, "\\\"")`. -/
def escQuote : List Char → List Char
  | [] => []
  | c :: cs => if c = '\"' then '\\' :: '\"' :: escQuote cs
               else c :: escQuote cs

/-- `esc` (server.js line 732): escape backslashes, then quotes. -/
def esc (s : String) : String :=
  String.mk (escQuote (escBackslash s.toList))

/-- `toTurtle` (server.js lines 733-750). -/
def toTurtle (tlId tlTitle sessionId : String) (f : FactSet) : String :=
  let sid := if tlId = "" then (norm tlTitle).replace " " "_" else tlId
  let lines : List String :=
    ["@prefix ex: <http://example.org/wi-ontology#> .",
     "@prefix schema: <http://schema.org/> .",
     "ex:" ++ sid ++ " a schema:Course ;",
     "  schema:name \"" ++ esc tlTitle ++ "\" ;"]
    ++ (match f.exam_type with
        | some t => if t = "" then [] else ["  ex:examType \"" ++ esc t ++ "\" ;"]
        | none => [])
    ++ (match f.difficulty_1_5 with
        | some n => ["  ex:difficulty " ++ toString n ++ " ;"]
        | none => [])
    ++ (match f.prep_weeks with
        | some n => ["  ex:prepWeeks " ++ toString n ++ " ;"]
        | none => [])
    ++ (match f.hours_per_week with
        | some n => ["  ex:hoursPerWeek " ++ toString n ++ " ;"]
        | none => [])
    ++ (f.strategies.getD []).map (fun s => "  ex:strategy \"" ++ esc s ++ "\" ;")
    ++ (f.materials.getD []).map (fun s => "  ex:material \"" ++ esc s ++ "\" ;")
    ++ (f.pitfalls.getD []).map (fun s => "  ex:pitfall \"" ++ esc s ++ "\" ;")
    ++ (f.tips.getD []).map (fun s => "  ex:tip \"" ++ esc s ++ "\" ;")
    ++ ["  ex:evidence \"" ++ esc sessionId ++ "\" .\n"]
  String.intercalate "\n" lines

structure KnowledgeEntry where
  sessionId : String
  facts : FactSet
  jsonld : JsonLD
  ttl : String
  deriving DecidableEq, Repr

structure CourseEntry where
  teilleistung_id : Option String := none
  title : String := ""
  text : String := ""
  New_Knowledge : List KnowledgeEntry := []
  deriving DecidableEq, Repr, Inhabited

structure Graphs where
  jsonld : List JsonLD := []
  ttl : List String := []
  deriving DecidableEq, Repr

/-- `appendToGlobalGraphs` (server.js lines 751-756): push the JSON-LD
document onto the global array and append the Turtle chunk (plus a
newline) to the stream file. -/
def appendToGlobalGraphs (g : Graphs) (doc : JsonLD) (chunk : String) : Graphs :=
  { jsonld := g.jsonld ++ [doc], ttl := g.ttl ++ [chunk ++ "\n"] }

/-- The `findIndex` predicate of `saveNewKnowledge` (lines 774-778):
match by non-empty id, by bracketed id inside the title, or by
case-insensitive clean title. -/
def matchesCourse (tlId tlTitleClean : String) (e : CourseEntry) : Bool :=
  (match e.teilleistung_id with
   | some i => (i != "") && (i == tlId)
   | none => false)
  || (e.title.splitOn ("[" ++ tlId ++ "]")).length != 1
  || ((cleanTitle e.title).toLower == (cleanTitle tlTitleClean).toLower)

/-- Index of the last `New_Knowledge` entry of the same session
(lines 785-788: `reverse().findIndex(...)` and `length - 1 - i`). -/
def findLastSessionIdx (nk : List KnowledgeEntry) (sid : String) : Option Nat :=
  match nk.reverse.findIdx? (fun e => e.sessionId == sid) with
  | some j => some (nk.length - 1 - j)
  | none => none

structure SaveResult where
  catalog : List CourseEntry
  graphs : Graphs
  ok : Bool
  deriving DecidableEq, Repr

/-- `saveNewKnowledge` (server.js lines 771-824).  The two inner `none`
fallbacks are unreachable (the index returned by `findIdx?` and the
last-session index are always in range); they are needed only to keep
the function total. -/
def saveNewKnowledge (catalog : List CourseEntry) (g : Graphs)
    (tlId sessionId tlTitleClean : String) (newFacts : FactSet) : SaveResult :=
  match catalog.findIdx? (matchesCourse tlId tlTitleClean) with
  | none => ⟨catalog, g, false⟩
  | some idx =>
    match catalog[idx]? with
    | none => ⟨catalog, g, false⟩
    | some entry =>
      let nk := entry.New_Knowledge
      match findLastSessionIdx nk sessionId with
      | some realIdx =>
        match nk[realIdx]? with
        | none => ⟨catalog, g, false⟩
        | some prev =>
          let mergedFacts := mergeFacts prev.facts newFacts
          let doc := toJSONLD tlId tlTitleClean sessionId mergedFacts
          let chunk := toTurtle tlId tlTitleClean sessionId mergedFacts
          let nk2 := nk.set realIdx
            { prev with facts := mergedFacts, jsonld := doc, ttl := chunk }
          ⟨catalog.set idx { entry with New_Knowledge := nk2 },
            appendToGlobalGraphs g doc chunk, true⟩
      | none =>
        let doc := toJSONLD tlId tlTitleClean sessionId newFacts
        let chunk := toTurtle tlId tlTitleClean sessionId newFacts
        ⟨catalog.set idx
            { entry with New_Knowledge := nk ++ [⟨sessionId, newFacts, doc, chunk⟩] },
          appendToGlobalGraphs g doc chunk, true⟩

/-! ### List bookkeeping lemmas for `saveNewKnowledge` -/

theorem findIdx?_go_spec {α : Type} (p : α → Bool) :
    ∀ (l : List α) (s i : Nat), List.findIdx? p l s = some i →
      s ≤ i ∧ ∃ a, l[i - s]? = some a ∧ p a = true
  | [], s, i, h => by simp [List.findIdx?] at h
  | x :: xs, s, i, h => by
    rw [List.findIdx?_cons] at h
    by_cases hx : p x
    · simp only [hx, if_pos] at h
      injection h with h
      subst h
      exact ⟨le_refl s, x, by simp, hx⟩
    · simp only [hx, if_neg, not_false_eq_true] at h
      obtain ⟨hs, a, ha, hpa⟩ := findIdx?_go_spec p xs (s + 1) i h
      refine ⟨by omega, a, ?_, hpa⟩
      have : i - s = (i - (s + 1)) + 1 := by omega
      rw [this]
      simpa using ha

theorem findIdx?_spec {α : Type} (p : α → Bool) (l : List α) (i : Nat)
    (h : List.findIdx? p l = some i) : ∃ a, l[i]? = some a ∧ p a = true := by
  have := findIdx?_go_spec p l 0 i h
  simpa using this.2

theorem findIdx?_go_set {α : Type} (p : α → Bool) :
    ∀ (l : List α) (s i : Nat) (e : α), List.findIdx? p l s = some i → p e = true →
      List.findIdx? p (l.set (i - s) e) s = some i
  | [], s, i, e, h, _ => by simp [List.findIdx?] at h
  | x :: xs, s, i, e, h, hpe => by
    rw [List.findIdx?_cons] at h
    by_cases hx : p x
    · simp only [hx, if_pos] at h
      injection h with h
      subst h
      simp only [Nat.sub_self, List.set_cons_zero]
      rw [List.findIdx?_cons, if_pos hpe]
    · simp only [hx, if_neg, not_false_eq_true] at h
      have hs : s + 1 ≤ i := (findIdx?_go_spec p xs (s + 1) i h).1
      have hstep : i - s = (i - (s + 1)) + 1 := by omega
      rw [hstep, List.set_cons_succ, List.findIdx?_cons, if_neg hx]
      exact findIdx?_go_set p xs (s + 1) i e h hpe

theorem findIdx?_set_found {α : Type} (p : α → Bool) (l : List α) (i : Nat) (e : α)
    (h : List.findIdx? p l = some i) (hpe : p e = true) :
    List.findIdx? p (l.set i e) = some i := by
  have := findIdx?_go_set p l 0 i e h hpe
  simpa using this

theorem set_getElem?_self {α : Type} :
    ∀ (l : List α) (i : Nat) (a : α), l[i]? = some a → l.set i a = l
  | [], _, _, h => by simp at h
  | x :: xs, 0, a, h => by
    simp only [List.getElem?_cons_zero, Option.some.injEq] at h
    simp [h]
  | x :: xs, i + 1, a, h => by
    simp only [List.getElem?_cons_succ] at h
    simp [set_getElem?_self xs i a h]

theorem mem_of_getElem? {α : Type} :
    ∀ (l : List α) (i : Nat) (a : α), l[i]? = some a → a ∈ l
  | [], _, _, h => by simp at h
  | x :: xs, 0, a, h => by
    simp only [List.getElem?_cons_zero, Option.some.injEq] at h
    simp [h]
  | x :: xs, i + 1, a, h => by
    simp only [List.getElem?_cons_succ] at h
    exact List.mem_cons_of_mem x (mem_of_getElem? xs i a h)

theorem mem_set_cases {α : Type} :
    ∀ (l : List α) (i : Nat) (e x : α), x ∈ l.set i e → x = e ∨ x ∈ l
  | [], _, _, _, h => by simp at h
  | y :: ys, 0, e, x, h => by
    rw [List.set_cons_zero] at h
    rcases List.mem_cons.mp h with h1 | h2
    · exact Or.inl h1
    · exact Or.inr (List.mem_cons_of_mem y h2)
  | y :: ys, i + 1, e, x, h => by
    rw [List.set_cons_succ] at h
    rcases List.mem_cons.mp h with h1 | h2
    · exact Or.inr (by simp [h1])
    · rcases mem_set_cases ys i e x h2 with h3 | h4
      · exact Or.inl h3
      · exact Or.inr (List.mem_cons_of_mem y h4)

theorem findLastSessionIdx_append_self (nk : List KnowledgeEntry) (e : KnowledgeEntry)
    (sid : String) (h : e.sessionId = sid) :
    findLastSessionIdx (nk ++ [e]) sid = some nk.length := by
  unfold findLastSessionIdx
  rw [List.reverse_append]
  simp only [List.reverse_cons, List.reverse_nil, List.nil_append, List.cons_append,
    List.findIdx?_cons, h, beq_self_eq_true, if_pos, List.length_append,
    List.length_cons, List.length_nil]
  simp

theorem findLastSessionIdx_none_of_fresh (nk : List KnowledgeEntry) (sid : String)
    (h : ∀ e ∈ nk, e.sessionId ≠ sid) : findLastSessionIdx nk sid = none := by
  unfold findLastSessionIdx
  have hnone : nk.reverse.findIdx? (fun e => e.sessionId == sid) = none := by
    rw [List.findIdx?_eq_none_iff]
    intro e he
    simpa using h e (List.mem_reverse.mp he)
  rw [hnone]

theorem fresh_of_findLastSessionIdx_none (nk : List KnowledgeEntry) (sid : String)
    (h : findLastSessionIdx nk sid = none) : ∀ e ∈ nk, e.sessionId ≠ sid := by
  unfold findLastSessionIdx at h
  intro e he
  cases hf : nk.reverse.findIdx? (fun e => e.sessionId == sid) with
  | some j => rw [hf] at h; simp at h
  | none =>
    have := List.findIdx?_eq_none_iff.mp hf e (List.mem_reverse.mpr he)
    simpa using this

/-- `matchesCourse` only reads the id and title fields, never the
knowledge log. -/
theorem matchesCourse_set_nk (tlId t : String) (e : CourseEntry)
    (nk : List KnowledgeEntry) :
    matchesCourse tlId t { e with New_Knowledge := nk } = matchesCourse tlId t e := rfl

/-! ### Branch equations for `saveNewKnowledge` -/

theorem saveNewKnowledge_eq_nofind (cat : List CourseEntry) (g : Graphs)
    (tlId sid title : String) (f : FactSet)
    (hidx : cat.findIdx? (matchesCourse tlId title) = none) :
    saveNewKnowledge cat g tlId sid title f = ⟨cat, g, false⟩ := by
  unfold saveNewKnowledge
  simp only [hidx]

theorem saveNewKnowledge_eq_append (cat : List CourseEntry) (g : Graphs)
    (tlId sid title : String) (f : FactSet) (idx : Nat) (entry : CourseEntry)
    (hidx : cat.findIdx? (matchesCourse tlId title) = some idx)
    (hget : cat[idx]? = some entry)
    (hlast : findLastSessionIdx entry.New_Knowledge sid = none) :
    saveNewKnowledge cat g tlId sid title f =
      ⟨cat.set idx { entry with New_Knowledge := entry.New_Knowledge
          ++ [⟨sid, f, toJSONLD tlId title sid f, toTurtle tlId title sid f⟩] },
        appendToGlobalGraphs g (toJSONLD tlId title sid f) (toTurtle tlId title sid f),
        true⟩ := by
  unfold saveNewKnowledge
  simp only [hidx, hget, hlast]

/-- The in-place overwrite performed by the merge branch of
`saveNewKnowledge` (lines 793-799): keep the session id, replace facts,
JSON-LD and Turtle from the merged facts. -/
def mergedEntry (tlId sid title : String) (f : FactSet) (prev : KnowledgeEntry) :
    KnowledgeEntry :=
  { prev with
    facts := mergeFacts prev.facts f,
    jsonld := toJSONLD tlId title sid (mergeFacts prev.facts f),
    ttl := toTurtle tlId title sid (mergeFacts prev.facts f) }

theorem saveNewKnowledge_eq_merge (cat : List CourseEntry) (g : Graphs)
    (tlId sid title : String) (f : FactSet) (idx realIdx : Nat)
    (entry : CourseEntry) (prev : KnowledgeEntry)
    (hidx : cat.findIdx? (matchesCourse tlId title) = some idx)
    (hget : cat[idx]? = some entry)
    (hlast : findLastSessionIdx entry.New_Knowledge sid = some realIdx)
    (hprev : entry.New_Knowledge[realIdx]? = some prev) :
    saveNewKnowledge cat g tlId sid title f =
      ⟨cat.set idx { entry with New_Knowledge :=
          entry.New_Knowledge.set realIdx (mergedEntry tlId sid title f prev) },
        appendToGlobalGraphs g (toJSONLD tlId title sid (mergeFacts prev.facts f))
          (toTurtle tlId title sid (mergeFacts prev.facts f)),
        true⟩ := by
  unfold saveNewKnowledge mergedEntry
  simp only [hidx, hget, hlast, hprev]

theorem findLastSessionIdx_lt (nk : List KnowledgeEntry) (sid : String) (i : Nat)
    (h : findLastSessionIdx nk sid = some i) : i < nk.length := by
  unfold findLastSessionIdx at h
  cases hf : nk.reverse.findIdx? (fun e => e.sessionId == sid) with
  | none => rw [hf] at h; simp at h
  | some j =>
    rw [hf] at h
    injection h with h
    obtain ⟨a, ha, _⟩ := findIdx?_spec _ _ _ hf
    have hj : j < nk.reverse.length := by
      by_contra hge
      rw [List.getElem?_eq_none (by omega)] at ha
      exact Option.noConfusion ha
    rw [List.length_reverse] at hj
    omega

/-! ### C6 machinery: uniqueness of `(course, session)` in the knowledge log -/

/-- The per-course invariant: the `New_Knowledge` log of a course has
pairwise distinct session ids. -/
def nkNodup (e : CourseEntry) : Prop :=
  (e.New_Knowledge.map KnowledgeEntry.sessionId).Nodup

instance (e : CourseEntry) : Decidable (nkNodup e) :=
  List.nodupDecidable _

/-- One `saveNewKnowledge` call preserves the uniqueness invariant of
every course in the catalog. -/
theorem saveNewKnowledge_preserves_nodup (cat : List CourseEntry) (g : Graphs)
    (tlId sid title : String) (f : FactSet)
    (h : ∀ e ∈ cat, nkNodup e) :
    ∀ e ∈ (saveNewKnowledge cat g tlId sid title f).catalog, nkNodup e := by
  intro e he
  cases hidx : cat.findIdx? (matchesCourse tlId title) with
  | none =>
    rw [saveNewKnowledge_eq_nofind cat g tlId sid title f hidx] at he
    exact h e he
  | some idx =>
    obtain ⟨entry, hget, _⟩ := findIdx?_spec _ _ _ hidx
    cases hlast : findLastSessionIdx entry.New_Knowledge sid with
    | some realIdx =>
      have hlt := findLastSessionIdx_lt _ _ _ hlast
      cases hprev : entry.New_Knowledge[realIdx]? with
      | none =>
        rw [List.getElem?_eq_none_iff] at hprev
        omega
      | some prev =>
        rw [saveNewKnowledge_eq_merge cat g tlId sid title f idx realIdx entry prev
          hidx hget hlast hprev] at he
        rcases mem_set_cases _ _ _ _ he with rfl | hmem
        · unfold nkNodup
          simp only [List.map_set, mergedEntry]
          have hprev' : (entry.New_Knowledge.map KnowledgeEntry.sessionId)[realIdx]?
              = some prev.sessionId := by
            rw [List.getElem?_map, hprev]; rfl
          rw [set_getElem?_self _ _ _ hprev']
          exact h entry (mem_of_getElem? _ _ _ hget)
        · exact h e hmem
    | none =>
      rw [saveNewKnowledge_eq_append cat g tlId sid title f idx entry
        hidx hget hlast] at he
      rcases mem_set_cases _ _ _ _ he with rfl | hmem
      · unfold nkNodup
        simp only [List.map_append, List.map_cons, List.map_nil]
        have hfresh := fresh_of_findLastSessionIdx_none _ _ hlast
        rw [List.nodup_append]
        refine ⟨h entry (mem_of_getElem? _ _ _ hget), by simp, ?_⟩
        intro x hx hx'
        simp only [List.mem_singleton] at hx'
        subst hx'
        obtain ⟨k, hk, hks⟩ := List.mem_map.mp hx
        exact hfresh k hk hks
      · exact h e hmem

/-- One `saveNewKnowledge` call with an explicit argument record, for
folding over call sequences. -/
structure SaveArgs where
  tlId : String
  sessionId : String
  title : String
  facts : FactSet
  deriving Repr

def runSaves (cat : List CourseEntry) (g : Graphs) :
    List SaveArgs → List CourseEntry × Graphs
  | [] => (cat, g)
  | a :: rest =>
    let r := saveNewKnowledge cat g a.tlId a.sessionId a.title a.facts
    runSaves r.catalog r.graphs rest

/-- The per-course property the claims call "at most one entry per
(course_id, session_id)": for every session id, the course log holds at
most one entry of that session. -/
def atMostOnePerSession (e : CourseEntry) : Prop :=
  ∀ sid : String, (e.New_Knowledge.filter (fun k => k.sessionId == sid)).length ≤ 1

theorem nkNodup_atMostOne (e : CourseEntry) (h : nkNodup e) : atMostOnePerSession e := by
  intro sid
  have hc := List.nodup_iff_count_le_one.mp h sid
  rw [List.count_eq_countP, List.countP_map, List.countP_eq_length_filter] at hc
  simpa [Function.comp] using hc

theorem runSaves_preserves_nodup (calls : List SaveArgs) :
    ∀ (cat : List CourseEntry) (g : Graphs), (∀ e ∈ cat, nkNodup e) →
      ∀ e ∈ (runSaves cat g calls).1, nkNodup e := by
  induction calls with
  | nil => intro cat g h0; simpa [runSaves] using h0
  | cons a rest ih =>
    intro cat g h0 e he
    simp only [runSaves] at he
    exact ih _ _ (saveNewKnowledge_preserves_nodup cat g a.tlId a.sessionId a.title a.facts h0)
      e he

/-- **C1 (amended)** `saveNewKnowledge` called twice with the same
`(course_id, session_id, facts)`, for a session that has no prior entry
and facts whose list fields are already in merged normal form
(`mergeFacts facts facts = facts`): the catalog after the second call
equals the catalog after the first (the merge overwrites the entry in
place with identical contents), but the global graph files are
append-only — the first call appends one JSON-LD document and one Turtle
block, and the merge call appends one more of each. -/
theorem saveNewKnowledge_twice (cat : List CourseEntry) (g : Graphs)
    (tlId sid title : String) (f : FactSet)
    (hfresh : ∀ e ∈ cat, ∀ k ∈ e.New_Knowledge, k.sessionId ≠ sid)
    (hnorm : mergeFacts f f = f)
    (hok : (saveNewKnowledge cat g tlId sid title f).ok = true) :
    (saveNewKnowledge (saveNewKnowledge cat g tlId sid title f).catalog
        (saveNewKnowledge cat g tlId sid title f).graphs tlId sid title f).catalog
      = (saveNewKnowledge cat g tlId sid title f).catalog
    ∧ (saveNewKnowledge cat g tlId sid title f).graphs.jsonld.length
      = g.jsonld.length + 1
    ∧ (saveNewKnowledge cat g tlId sid title f).graphs.ttl.length
      = g.ttl.length + 1
    ∧ (saveNewKnowledge (saveNewKnowledge cat g tlId sid title f).catalog
        (saveNewKnowledge cat g tlId sid title f).graphs tlId sid title f).graphs.jsonld.length
      = g.jsonld.length + 2
    ∧ (saveNewKnowledge (saveNewKnowledge cat g tlId sid title f).catalog
        (saveNewKnowledge cat g tlId sid title f).graphs tlId sid title f).graphs.ttl.length
      = g.ttl.length + 2 := by
  cases hidx : cat.findIdx? (matchesCourse tlId title) with
  | none =>
    rw [saveNewKnowledge_eq_nofind cat g tlId sid title f hidx] at hok
    exact absurd hok (by simp)
  | some idx =>
    obtain ⟨entry, hget, hpent⟩ := findIdx?_spec _ _ _ hidx
    have hlast : findLastSessionIdx entry.New_Knowledge sid = none :=
      findLastSessionIdx_none_of_fresh _ _ (hfresh entry (mem_of_getElem? _ _ _ hget))
    have heq1 := saveNewKnowledge_eq_append cat g tlId sid title f idx entry hidx hget hlast
    rw [heq1]
    have hidx2 : (cat.set idx ({ entry with New_Knowledge := entry.New_Knowledge
          ++ [⟨sid, f, toJSONLD tlId title sid f, toTurtle tlId title sid f⟩] })).findIdx?
          (matchesCourse tlId title) = some idx := by
      apply findIdx?_set_found _ _ _ _ hidx
      rw [matchesCourse_set_nk]
      exact hpent
    have hlt : idx < cat.length := by
      rcases List.getElem?_eq_some.mp hget with ⟨hl, _⟩
      exact hl
    have hget2 : (cat.set idx ({ entry with New_Knowledge := entry.New_Knowledge
          ++ [⟨sid, f, toJSONLD tlId title sid f, toTurtle tlId title sid f⟩] }))[idx]?
        = some ({ entry with New_Knowledge := entry.New_Knowledge
          ++ [⟨sid, f, toJSONLD tlId title sid f, toTurtle tlId title sid f⟩] }) :=
      List.getElem?_set_self hlt
    have hlast2 : findLastSessionIdx ({ entry with New_Knowledge := entry.New_Knowledge
          ++ [⟨sid, f, toJSONLD tlId title sid f, toTurtle tlId title sid f⟩]
          : CourseEntry }).New_Knowledge sid = some entry.New_Knowledge.length :=
      findLastSessionIdx_append_self _ _ _ rfl
    have hprev2 : ({ entry with New_Knowledge := entry.New_Knowledge
          ++ [⟨sid, f, toJSONLD tlId title sid f, toTurtle tlId title sid f⟩]
          : CourseEntry }).New_Knowledge[entry.New_Knowledge.length]?
        = some ⟨sid, f, toJSONLD tlId title sid f, toTurtle tlId title sid f⟩ :=
      List.getElem?_concat_length _ _
    have heq2 := saveNewKnowledge_eq_merge _
      (appendToGlobalGraphs g (toJSONLD tlId title sid f) (toTurtle tlId title sid f))
      tlId sid title f idx entry.New_Knowledge.length _ _ hidx2 hget2 hlast2 hprev2
    have hmf : mergeFacts (⟨sid, f, toJSONLD tlId title sid f,
        toTurtle tlId title sid f⟩ : KnowledgeEntry).facts f = f := hnorm
    have hme : mergedEntry tlId sid title f
        ⟨sid, f, toJSONLD tlId title sid f, toTurtle tlId title sid f⟩
        = ⟨sid, f, toJSONLD tlId title sid f, toTurtle tlId title sid f⟩ := by
      unfold mergedEntry
      rw [hmf]
    rw [hme, hmf] at heq2
    rw [set_getElem?_self _ _ _ hprev2] at heq2
    rw [set_getElem?_self _ _ _ hget2] at heq2
    rw [heq2]
    simp [appendToGlobalGraphs]

/-! ## Claim theorems for the knowledge store -/

/-- A one-course catalog used by the concrete instances below. -/
def titelCatalog : List CourseEntry :=
  [{ teilleistung_id := some "T-X", title := "Titel" }]

/-- A fact set in merged normal form: all list fields present,
duplicate-free and without empty strings. -/
def normalFacts : FactSet :=
  { exam_type := some "schriftlich", strategies := some ["A"],
    materials := some [], pitfalls := some [], tips := some [] }

/-- **C1 (counterexample)** The claim states that the merge (second)
call appends **no** additional JSON-LD document and leaves the course
entry unchanged.  On a one-course catalog and empty graphs, saving the
empty fact set twice for the same `(course, session)` leaves two
JSON-LD documents in the global array (the merge call appended a second
one), and the second call also changes the course entry in the catalog
(the merge normalises absent list fields to empty lists). -/
theorem save_merge_appends_jsonld_cex :
    (saveNewKnowledge titelCatalog {} "T-X" "s1" "Titel" {}).graphs.jsonld.length = 1
    ∧ (saveNewKnowledge
        (saveNewKnowledge titelCatalog {} "T-X" "s1" "Titel" {}).catalog
        (saveNewKnowledge titelCatalog {} "T-X" "s1" "Titel" {}).graphs
        "T-X" "s1" "Titel" {}).graphs.jsonld.length = 2
    ∧ (saveNewKnowledge
        (saveNewKnowledge titelCatalog {} "T-X" "s1" "Titel" {}).catalog
        (saveNewKnowledge titelCatalog {} "T-X" "s1" "Titel" {}).graphs
        "T-X" "s1" "Titel" {}).catalog
      ≠ (saveNewKnowledge titelCatalog {} "T-X" "s1" "Titel" {}).catalog := by
  decide

/-- Witness for `saveNewKnowledge_twice` at a concrete catalog, session
and fact set in merged normal form. -/
theorem saveNewKnowledge_twice_witness :
    (saveNewKnowledge
        (saveNewKnowledge titelCatalog {} "T-X" "s1" "Titel" normalFacts).catalog
        (saveNewKnowledge titelCatalog {} "T-X" "s1" "Titel" normalFacts).graphs
        "T-X" "s1" "Titel" normalFacts).catalog
      = (saveNewKnowledge titelCatalog {} "T-X" "s1" "Titel" normalFacts).catalog
    ∧ (saveNewKnowledge
        (saveNewKnowledge titelCatalog {} "T-X" "s1" "Titel" normalFacts).catalog
        (saveNewKnowledge titelCatalog {} "T-X" "s1" "Titel" normalFacts).graphs
        "T-X" "s1" "Titel" normalFacts).graphs.jsonld.length = 2 := by
  have h := saveNewKnowledge_twice titelCatalog {} "T-X" "s1" "Titel" normalFacts
    (by decide) (by decide) (by decide)
  refine ⟨h.1, ?_⟩
  rw [h.2.2.2.1]
  rfl

/-- **C6** After any sequence of `saveNewKnowledge` calls starting from
a catalog whose per-course logs have pairwise distinct session ids
(e.g. a catalog with empty logs), every course's `New_Knowledge` log
still contains at most one entry per session id: a save for an existing
`(course, session)` merges in place and never appends a duplicate. -/
theorem nk_unique_per_session (cat : List CourseEntry) (g : Graphs)
    (calls : List SaveArgs)
    (h0 : ∀ e ∈ cat, nkNodup e) :
    ∀ e ∈ (runSaves cat g calls).1, atMostOnePerSession e := by
  intro e he
  exact nkNodup_atMostOne e (runSaves_preserves_nodup calls cat g h0 e he)

/-- The two-call sequence used by the C6 witness: both saves target the
same course and session. -/
def twoSaveCalls : List SaveArgs :=
  [⟨"T-X", "s1", "Titel", {}⟩,
   ⟨"T-X", "s1", "Titel", { exam_type := some "schriftlich" }⟩]

set_option maxRecDepth 4000 in
/-- Witness for `nk_unique_per_session`: two saves of the same
`(course, session)` leave at most one entry for that session. -/
theorem nk_unique_per_session_witness :
    (((runSaves titelCatalog {} twoSaveCalls).1.headI.New_Knowledge.filter
      (fun k => k.sessionId == "s1")).length ≤ 1) := by
  have h := nk_unique_per_session titelCatalog {} twoSaveCalls (by decide)
  exact h ((runSaves titelCatalog {} twoSaveCalls).1.headI) (by decide) "s1"

/-! ## Claim theorems for `mergeFacts` -/

/-- **C7 (counterexample)** The claim says each list field of the merge
is the deduplicated union preserving first-seen order.  The code
additionally drops JS-falsy strings (`filter(Boolean)`), so merging a
fact set whose `strategies` is `[""]` with an empty one yields `[]`,
not the union `[""]`. -/
theorem mergeFacts_drops_empty_string_cex :
    (mergeFacts { strategies := some [""] } {}).strategies
      ≠ some (specListUnion
          (({ strategies := some [""] } : FactSet).strategies.getD [])
          (({} : FactSet).strategies.getD [])) := by decide

/-- **C7 (amended)** `mergeFacts(a,b)` takes each scalar field from `b`
when non-null and otherwise keeps `a`'s; each list field becomes the
deduplicated union — of the *non-empty* strings, `filter(Boolean)`
dropping `""` — preserving first-seen order; and on list fields the
merge is associative. -/
theorem mergeFacts_spec_amended :
    (∀ a b : FactSet,
      (mergeFacts a b).exam_type
        = (if b.exam_type.isSome then b.exam_type else a.exam_type)
      ∧ (mergeFacts a b).prep_weeks
        = (if b.prep_weeks.isSome then b.prep_weeks else a.prep_weeks)
      ∧ (mergeFacts a b).hours_per_week
        = (if b.hours_per_week.isSome then b.hours_per_week else a.hours_per_week)
      ∧ (mergeFacts a b).difficulty_1_5
        = (if b.difficulty_1_5.isSome then b.difficulty_1_5 else a.difficulty_1_5)
      ∧ (mergeFacts a b).strategies
        = some (dedupFirst ((a.strategies.getD [] ++ b.strategies.getD []).filter
            (fun s => s ≠ "")))
      ∧ (mergeFacts a b).materials
        = some (dedupFirst ((a.materials.getD [] ++ b.materials.getD []).filter
            (fun s => s ≠ "")))
      ∧ (mergeFacts a b).pitfalls
        = some (dedupFirst ((a.pitfalls.getD [] ++ b.pitfalls.getD []).filter
            (fun s => s ≠ "")))
      ∧ (mergeFacts a b).tips
        = some (dedupFirst ((a.tips.getD [] ++ b.tips.getD []).filter
            (fun s => s ≠ ""))))
    ∧ (∀ a b c : FactSet,
      (mergeFacts (mergeFacts a b) c).strategies
        = (mergeFacts a (mergeFacts b c)).strategies
      ∧ (mergeFacts (mergeFacts a b) c).materials
        = (mergeFacts a (mergeFacts b c)).materials
      ∧ (mergeFacts (mergeFacts a b) c).pitfalls
        = (mergeFacts a (mergeFacts b c)).pitfalls
      ∧ (mergeFacts (mergeFacts a b) c).tips
        = (mergeFacts a (mergeFacts b c)).tips) := by
  constructor
  · intro a b
    refine ⟨?_, ?_, ?_, ?_, rfl, rfl, rfl, rfl⟩
    · cases hb : b.exam_type <;> simp [mergeFacts, hb]
    · cases hb : b.prep_weeks <;> simp [mergeFacts, hb]
    · cases hb : b.hours_per_week <;> simp [mergeFacts, hb]
    · cases hb : b.difficulty_1_5 <;> simp [mergeFacts, hb]
  · intro a b c
    refine ⟨?_, ?_, ?_, ?_⟩ <;>
      exact congrArg some (listMerge_assoc _ _ _)

/-! ## Claim theorem for the fuzzy score -/

/-- **C9** For all strings, the fuzzy match score
`0.6·Dice + 0.4·Jaccard` lies in `[0,1]`, and the token-Jaccard term is
symmetric. -/
theorem score_bounded_and_jacc_symm :
    (∀ query title : String, 0 ≤ score query title ∧ score query title ≤ 1)
    ∧ (∀ a b : String, tokenJacc a b = tokenJacc b a) := by
  constructor
  · intro q t
    constructor
    · unfold score
      have h1 := dice_nonneg q t
      have h2 := tokenJacc_nonneg q t
      nlinarith
    · unfold score
      have h1 := dice_le_one q t
      have h2 := tokenJacc_le_one q t
      nlinarith
  · exact tokenJacc_symm

/-! ## Oracle payload clamping: `llmIntro` (server.js lines 364-389)

The oracle's JSON numbers are modelled as finite rationals (JS `NaN` and
`±Infinity` are not representable; the `Number.isFinite` guard of the
code never fires in the model).  `p|0` is JavaScript ToInt32: truncate
toward zero, then wrap into the signed 32-bit range. -/

structure IntroRaw where
  semester : Option ℚ := none
  progress_percent : Option ℚ := none
  deriving DecidableEq, Repr

/-- Truncation toward zero of a rational, as JS ToInt32 starts with. -/
def jsTrunc (q : ℚ) : Int := if 0 ≤ q then ⌊q⌋ else ⌈q⌉

/-- Wrap an integer into the signed 32-bit range (the rest of ToInt32). -/
def toInt32 (n : Int) : Int := ((n + 2 ^ 31) % 2 ^ 32) - 2 ^ 31

structure IntroOut where
  semester : Option ℚ
  progress_percent : Option ℚ
  deriving DecidableEq, Repr

/-- The clamping `llmIntro` applies to the parsed oracle payload
(lines 385-388): an out-of-range semester becomes null; a non-null
progress percentage is coerced by `Math.max(0, Math.min(100, p|0))`. -/
def llmIntroClamp (p : IntroRaw) : IntroOut where
  semester := match p.semester with
    | none => none
    | some s => if s < 1 ∨ s > 20 then none else some s
  progress_percent := match p.progress_percent with
    | none => none
    | some q => some (max 0 (min 100 ((toInt32 (jsTrunc q) : ℚ))))

/-! ## Transcript: `pushTranscript` (server.js lines 208-214) -/

structure TranscriptEntry where
  role : String
  content : String
  meta : Option (String × String) := none
  deriving DecidableEq, Repr, Inhabited

/-- `pushTranscript`: drop the turn when the immediately preceding entry
has the same role and content (the `meta` field is not compared);
otherwise append.  Timestamps are omitted from the model. -/
def pushTranscript (t : List TranscriptEntry) (role content : String)
    (meta : Option (String × String)) : List TranscriptEntry :=
  match t.getLast? with
  | some last =>
    if last.role = role ∧ last.content = content then t
    else t ++ [⟨role, content, meta⟩]
  | none => t ++ [⟨role, content, meta⟩]

/-- No two consecutive transcript entries agree on both role and content. -/
def noAdjDup (t : List TranscriptEntry) : Prop :=
  t.Chain' (fun a b => ¬(a.role = b.role ∧ a.content = b.content))

/-! ## Session state (server.js lines 140-197)

`mode`, `started_at` and the evaluation sub-record are never read by the
dialogue controller and are omitted.  JS falsy strings (`""`) are
distinguished from `null` by `jsTruthy` where the code tests
truthiness. -/

def jsTruthy (o : Option String) : Bool :=
  match o with
  | some s => !(s == "")
  | none => false

def jsStrOr (o : Option String) (d : String) : String :=
  match o with
  | some s => if s = "" then d else s
  | none => d

structure GeneralInfo where
  semester : Option ℚ := none
  progress_percent : Option ℚ := none
  deriving DecidableEq, Repr

structure Candidate where
  idx : Int
  id : String
  title : String
  deriving DecidableEq, Repr

structure PendingTL where
  id : String
  title : String
  deriving DecidableEq, Repr

structure CurrentState where
  area : Option String := none
  tl_id : Option String := none
  tl_title : Option String := none
  awaiting_written_confirm : Bool := false
  awaiting_title_written_confirm : Bool := false
  candidates : List Candidate := []
  awaiting_candidate_choice : Bool := false
  tl_facts : FactSet := {}
  in_tl_rounds : Nat := 0
  declinedWritten : List String := []
  last_confirm_tl : Option String := none
  awaiting_tl_title_confirm : Bool := false
  pending_tl_candidate : Option PendingTL := none
  deriving DecidableEq, Repr

structure Flags where
  llm_disabled : Bool := false
  llm_disabled_reason : Option String := none
  deriving DecidableEq, Repr

structure SessionState where
  stage : String := "await_semester_progress"
  general : GeneralInfo := {}
  general_q : Nat := 0
  asked_log : List String := []
  transcript : List TranscriptEntry := []
  current : CurrentState := {}
  flags : Flags := {}
  deriving DecidableEq, Repr

/-! ## Oracle outputs

One record per turn holding the validated output of every classifier the
turn may call (the adapter layer of server.js parses the oracle's JSON
and clamps it; the fields below are those post-validation values).
`r1`–`r3` supply the random draws of up to three `pickRandomFromPool`
calls of one turn. -/

inductive Intent
  | abort
  | cont
  deriving DecidableEq, Repr

inductive TitleMatch
  | yes
  | no
  | unclear
  deriving DecidableEq, Repr

inductive PickReply
  | pick (idx : Int)
  | nonePick
  | freeTitle (title : String)
  | invalid
  deriving DecidableEq, Repr

structure DetectOut where
  found_area : Option String := none
  found_tl_text : Option String := none
  found_tl_list : Option (List String) := none
  temporal_hint : String := "unknown"
  wrote_prob : Option ℚ := none
  deriving DecidableEq, Repr

structure ResolveOut where
  match_id : Option String := none
  match_title : Option String := none
  confidence : ℚ := 0
  need_clarify : Bool := false
  clarify_question : Option String := none
  deriving DecidableEq, Repr

structure QuestionOut where
  question : String
  rationale : String
  deriving DecidableEq, Repr

/-- A fact delta as returned by `llmExtractFacts`: each field may be
absent (the object spread keeps the old value) or present — possibly
with value `null` (the spread then overwrites with `null`). -/
structure FactDelta where
  exam_type : Option (Option String) := none
  prep_weeks : Option (Option Int) := none
  hours_per_week : Option (Option Int) := none
  difficulty_1_5 : Option (Option Int) := none
  strategies : Option (Option (List String)) := none
  materials : Option (Option (List String)) := none
  pitfalls : Option (Option (List String)) := none
  tips : Option (Option (List String)) := none
  deriving DecidableEq, Repr

/-- The object spread `{ ...base, ...add }` of server.js line 1642. -/
def spreadFacts (base : FactSet) (d : FactDelta) : FactSet where
  exam_type := d.exam_type.getD base.exam_type
  prep_weeks := d.prep_weeks.getD base.prep_weeks
  hours_per_week := d.hours_per_week.getD base.hours_per_week
  difficulty_1_5 := d.difficulty_1_5.getD base.difficulty_1_5
  strategies := d.strategies.getD base.strategies
  materials := d.materials.getD base.materials
  pitfalls := d.pitfalls.getD base.pitfalls
  tips := d.tips.getD base.tips

structure OracleOut where
  intent : Intent := .cont
  pickReply : PickReply := .invalid
  combined : TitleMatch × Option Bool := (.unclear, none)
  written : Option Bool := none
  introRaw : IntroRaw := {}
  detect : DetectOut := {}
  resolveTL : String → ResolveOut := fun _ => {}
  phaseQRaw : Option QuestionOut := none
  phase2QRaw : Option QuestionOut := none
  nextTLQRaw : Option QuestionOut := none
  extract : FactDelta := {}
  r1 : Nat := 0
  r2 : Nat := 0
  r3 : Nat := 0

/-- Outcome of the oracle calls of one turn: all succeed, or the first
failing call throws quota / rate-limit / other.  Because the handler's
`catch` reloads the last persisted snapshot (taken right after the user
turn was pushed), mid-turn mutations before a throw are rolled back, so
a single outcome per turn is faithful. -/
inductive OracleOutcome
  | ok (o : OracleOut)
  | quota
  | rateLimit
  | otherErr

/-- A catalog entry of the fuzzy-search index (`teilleistungen`,
server.js lines 101-111). -/
structure TL where
  id : String
  title : String
  deriving DecidableEq, Repr

/-- Static environment of a turn: the question pools of Fragenset.json
and the catalog-derived lookups (instructor, Erfolgskontrolle text,
information-content heuristic), supplied as functions. -/
structure Env where
  phase1 : List String := []
  phase3 : List String := []
  phase4 : List String := []
  teilleistungen : List TL := []
  instructor : String → Option String := fun _ => none
  erfolg : String → Option String := fun _ => none
  infoScore : String → Nat := fun _ => 0

/-! ## Controller helpers (server.js lines 130-362, 694-698, 1029-1040) -/

structure ScoredTL where
  id : String
  title : String
  score : ℚ
  deriving DecidableEq, Repr

/-- `candidates` (server.js lines 131-135): score every catalog title,
sort descending (stable, as modern JS `Array.prototype.sort`), take `k`. -/
def candidatesOf (env : Env) (query : String) (k : Nat) : List ScoredTL :=
  ((env.teilleistungen.map (fun t => ScoredTL.mk t.id t.title (score query t.title))).mergeSort
    (fun a b => decide (b.score ≤ a.score))).take k

/-- `pickRandomFromPool` (server.js lines 357-362) with the random draw
made explicit as an index `r`. -/
def pickRandomFromPool (pool askedLog : List String) (r : Nat) : String :=
  let remaining := pool.filter (fun q => !(askedLog.contains q))
  let base := if remaining.isEmpty then pool else remaining
  if base.isEmpty then "Wie lief dein bisheriger Studienverlauf insgesamt?"
  else base.getD (r % base.length) ""

/-- The fallback-and-trim wrapper of `llmPickPhaseQuestion`
(lines 391-416): an empty or unparsable oracle question is replaced by a
pool draw, and question and rationale are trimmed. -/
def llmPickPhaseQuestion (pool askedLog : List String) (raw : Option QuestionOut)
    (r : Nat) : String × String :=
  let o := match raw with
    | some q => if q.question = "" then
        QuestionOut.mk (pickRandomFromPool pool askedLog r) "Pool-Fallback." else q
    | none => QuestionOut.mk (pickRandomFromPool pool askedLog r) "Pool-Fallback."
  (jsTrim o.question, jsTrim o.rationale)

def fallbackIdentQuestion : String :=
  "Wie lautet der exakte Titel der bereits geschriebenen Klausur, über die du berichten möchtest?"

/-- The fallback wrapper of `llmPickPhase2IdentifyQuestion`
(lines 573-603): an empty or unparsable oracle question is replaced by
the fixed identification question. -/
def llmPickPhase2IdentifyQuestion (raw : Option QuestionOut) : String × String :=
  match raw with
  | some q => if q.question = "" then
      (fallbackIdentQuestion, "Fallback auf präzise Identifikationsfrage.") else
      (q.question, q.rationale)
  | none => (fallbackIdentQuestion, "Fallback auf präzise Identifikationsfrage.")

/-- The fallback-and-trim wrapper of `llmNextTLQuestion` (lines 630-654);
its question handling is identical to `llmPickPhaseQuestion` with the
phase-3 pool. -/
def llmNextTLQuestion (phase3Pool askedLog : List String) (raw : Option QuestionOut)
    (r : Nat) : String × String :=
  llmPickPhaseQuestion phase3Pool askedLog raw r

inductive PickResult
  | picked (c : Candidate)
  | noneRes
  | freeTitleRes (title : String)
  deriving DecidableEq, Repr

/-- `llmPickCandidateFromReply` (lines 657-692) on the validated reply:
a pick is resolved against the numbered list, `none` and `free` are
passed through, anything else is `null`. -/
def llmPickCandidateFromReply (cands : List Candidate) (r : PickReply) :
    Option PickResult :=
  if cands.isEmpty then none
  else match r with
    | .pick idx =>
      match cands.find? (fun c => c.idx == idx) with
      | some hit => some (.picked hit)
      | none => none
    | .nonePick => some .noneRes
    | .freeTitle t => if t = "" then none else some (.freeTitleRes (jsTrim t))
    | .invalid => none

structure ResolvedTL where
  id : String
  title : String
  confidence : ℚ
  deriving DecidableEq, Repr

/-- The `resolveMentions` helper of the general and tl_search stages
(lines 1342-1350, 1461-1469): resolve every mention, keep those matched
with confidence ≥ 0.6. -/
def resolveMentions (o : OracleOut) (mentions : List String) : List ResolvedTL :=
  mentions.foldr (fun m acc =>
    let pick := o.resolveTL m
    if jsTruthy pick.match_id ∧ pick.confidence ≥ 0.6 then
      ResolvedTL.mk (pick.match_id.getD "") (pick.match_title.getD "") pick.confidence :: acc
    else acc) []

/-- `pickLeastKnownOfResolved` (lines 346-354): first strict minimum of
the information-content heuristic. -/
def pickLeastKnownOfResolved (env : Env) (l : List ResolvedTL) : Option ResolvedTL :=
  match l with
  | [] => none
  | _ =>
    let res := l.foldl (fun (st : Option ResolvedTL × Option Nat) r =>
      let sc := env.infoScore r.id
      match st.2 with
      | none => (some r, some sc)
      | some bs => if sc < bs then (some r, some sc) else st) (none, none)
    match res.1 with
    | some b => some b
    | none => l.head?

/-- `MAX_IN_TL_ROUNDS` (server.js line 30). -/
def MAX_IN_TL_ROUNDS : Nat := 6

/-- `rationaleTemplate` (lines 215-225); the `phase` parameter of the JS
function is unused by its body and dropped here. -/
def rationaleTemplate (code : String) : String :=
  if code = "intro_greet" then "Einstieg mit Erhebung Basisdaten."
  else if code = "tl_search_title_only" then
    "Identifikation ausschließlich über exakten Titel."
  else if code = "tl_search_future_redirect" then
    "Zukunftsbezug erkannt → Rücklenkung auf bereits geschriebene Klausuren."
  else if code = "tl_search_remind" then "Bitte um präzise Titelangabe."
  else if code = "in_tl_first" then "Direkter Einstieg in die bestätigte Klausur."
  else if code = "wrap_up" then "Wechsel zu weiterer Teilleistung."
  else "Schlüssige Fortschrittsfrage zur jeweiligen Phase."

/-- `addAssistantTurn` (lines 226-230): push an assistant entry whose
meta records the current stage and the rationale (template fallback on
an absent or empty rationale). -/
def addAssistantTurn (s : SessionState) (text code : String)
    (rationale : Option String) : SessionState :=
  let m := some (s.stage, jsStrOr rationale (rationaleTemplate code))
  { s with transcript := pushTranscript s.transcript "assistant" text m }

structure Reply where
  answer : String
  code : String
  deriving DecidableEq, Repr

def emit (s : SessionState) (text code : String) (ra : Option String) :
    SessionState × Reply :=
  (addAssistantTurn s text code ra, ⟨text, code⟩)

def pushAsked (s : SessionState) (q : String) : SessionState :=
  { s with asked_log := s.asked_log ++ [q] }

/-- The combined title/written prompt built at lines 1157-1160, 1305,
1381, 1419, 1500, 1547. -/
def combinedQuestion (env : Env) (id title : String) : String :=
  "Nur zum Abgleich: Meintest du „" ++ cleanTitle title ++ "“"
  ++ (match env.instructor id with
      | some ins => if ins = "" then "" else " (bei Dozent:in " ++ ins ++ ")"
      | none => "")
  ++ " — und hast du diese Klausur bereits geschrieben?"

def llmDisabledDefaultMsg : String :=
  "Ich kann gerade keine Antworten erzeugen (LLM deaktiviert). Bitte später erneut versuchen."

def quotaReasonMsg : String :=
  "Ich kann gerade keine Antworten erzeugen: Dein OpenAI-Kontingent (API) ist aufgebraucht oder Abrechnung ist nicht aktiv. Bitte im OpenAI-Dashboard prüfen."

def rateLimitMsg : String :=
  "Ich wurde kurz gebremst (Rate Limit). Bitte sende dieselbe Nachricht in ein paar Sekunden erneut."

def techErrorMsg : String :=
  "Es gab ein technisches Problem. Bitte die letzte Nachricht kurz erneut senden."

def writtenReprompt : String :=
  "Nur zur Sicherheit: Hattest du diese Klausur bereits geschrieben? (ja/nein)"

def candidateRemindMsg : String :=
  "Wenn eine Option passte, sag bitte „die erste“ oder nenne den exakten Titel."

def fallbackStageMsg : String :=
  "Lass uns mit einer bereits geschriebenen Klausur weitermachen: Wie lautet der exakte Titel?"

/-- `greetText` (lines 1029-1035). -/
def greetText : String :=
  "Hallo, ich bin dein Interview-Chatbot! Ich möchte dich zu deinem Studium befragen, um aus deinem wertvollen Erfahrungsschatz hilfreiches Wissen zu extrahieren."
  ++ " " ++ "Zuerst stelle ich ein paar allgemeine Fragen und gehe danach konkreter auf einzelne Fächer/Klausuren ein. Am Ende bitte ich dich um eine kurze Evaluation."
  ++ " " ++ "Zum Einstieg: In welchem Semester befindest du dich aktuell und wie weit bist du im Studium (in %)?"

def hasIntroGreeting (s : SessionState) : Bool :=
  s.transcript.any (fun m => m.role == "assistant" && m.content == greetText)

def ensureIntroGreeting (s : SessionState) : SessionState :=
  if hasIntroGreeting s then s else addAssistantTurn s greetText "intro_greet" none

/-- The `force` reset of `/api/interview/start` (lines 1050-1067). -/
def forceResetSession (s : SessionState) : SessionState :=
  { s with
    stage := "await_semester_progress",
    general := {},
    general_q := 0,
    asked_log := [],
    current := {},
    flags := {},
    transcript := [] }

/-- `/api/interview/start` (lines 1042-1072): upsert the session, apply
the force reset when requested, and idempotently add the greeting. -/
def interviewStart (existing : Option SessionState) (force : Bool) : SessionState :=
  let s := existing.getD {}
  let s := if force then forceResetSession s else s
  ensureIntroGreeting s

/-! ## The `/api/retrieve` state machine (server.js lines 1105-1720)

Each branch function takes the session state *after* the user turn has
been pushed and the per-turn oracle record, and returns the new state
plus the emitted reply.  The `saveNewKnowledge` file write of the in_tl
branch acts on the catalog, which is modelled separately by
`saveNewKnowledge`; the session state it returns is unaffected. -/

def wroteProbHigh (det : DetectOut) : Bool :=
  match det.wrote_prob with
  | some p => p ≥ 0.85
  | none => false

/-- The abort handling (lines 1133-1151): clear the working fields,
re-enter `tl_search`, ask an identification question. -/
def abortBranch (s : SessionState) (o : OracleOut) : SessionState × Reply :=
  let s := { s with
    current := { s.current with
      tl_id := none, tl_title := none,
      awaiting_written_confirm := false,
      awaiting_title_written_confirm := false,
      awaiting_tl_title_confirm := false,
      pending_tl_candidate := none,
      candidates := [], awaiting_candidate_choice := false,
      in_tl_rounds := 0, tl_facts := {} },
    stage := "tl_search" }
  let qr := llmPickPhase2IdentifyQuestion o.phase2QRaw
  let s := pushAsked s qr.1
  emit s qr.1 "tl_search_title_only" (some qr.2)

/-- Entering phase 3 directly on high write probability
(lines 1357-1373, 1394-1411, 1477-1493, 1523-1540): reset rounds and
facts, ask the first depth question prefixed with the course intro. -/
def enterInTlDirect (env : Env) (s : SessionState) (o : OracleOut)
    (tid ttitle : String) : SessionState × Reply :=
  let s := { s with
    stage := "in_tl",
    current := { s.current with
      tl_id := some tid, tl_title := some ttitle,
      awaiting_written_confirm := false,
      in_tl_rounds := 0, tl_facts := {} } }
  let qr := llmNextTLQuestion env.phase3 s.asked_log o.nextTLQRaw o.r1
  let s := pushAsked s qr.1
  let intro := "Lass uns über „" ++ cleanTitle ttitle ++ "“ sprechen. " ++ qr.1
  emit s intro "in_tl_first" (some "Hohe Sicherheit aus Verlauf (geschrieben).")

/-- Ask a phase-2 identification question and log it
(the repeated `llmPickPhase2IdentifyQuestion` + push + emit pattern). -/
def askIdentQuestion (s : SessionState) (o : OracleOut) (code : String) :
    SessionState × Reply :=
  let qr := llmPickPhase2IdentifyQuestion o.phase2QRaw
  let s := pushAsked s qr.1
  emit s qr.1 code (some qr.2)

/-- Move to the combined title/written confirmation for a resolved
candidate (the repeated pending/awaiting/ask pattern); `newStage` is the
stage assigned by the general branch (`tl_search`) or `none` to keep the
current stage (tl_search branch). -/
def askCombinedConfirm (env : Env) (s : SessionState) (newStage : Option String)
    (tid ttitle : String) : SessionState × Reply :=
  let s := { s with
    stage := newStage.getD s.stage,
    current := { s.current with
      pending_tl_candidate := some ⟨tid, ttitle⟩,
      awaiting_title_written_confirm := true } }
  emit s (combinedQuestion env tid ttitle) "tl_search_confirm_title" none

/-- The numbered clarification shortlist (lines 1201-1209, 1553-1561). -/
def askClarifyShortlist (s : SessionState) (clarify : String)
    (cand : List ScoredTL) : SessionState × Reply :=
  let top3 := (cand.take 3).mapIdx (fun i c => Candidate.mk ((i : Int) + 1) c.id c.title)
  let s := { s with
    current := { s.current with candidates := top3, awaiting_candidate_choice := true } }
  let listStr := String.intercalate "\n"
    (top3.map (fun c => toString c.idx ++ ". " ++ cleanTitle c.title ++ " (" ++ c.id ++ ")"))
  let msg := clarify ++ "\n\nZur Orientierung:\n" ++ listStr
    ++ "\n\nSag z. B. „die erste“ oder nenne den exakten Titel."
  emit s msg "tl_search_remind" none

/-- The open candidate choice block (lines 1154-1225). -/
def candidateChoiceBranch (env : Env) (s : SessionState) (o : OracleOut) :
    SessionState × Reply :=
  match llmPickCandidateFromReply s.current.candidates o.pickReply with
  | some (.picked c) =>
    let s := { s with
      current := { s.current with
        pending_tl_candidate := some ⟨c.id, c.title⟩,
        awaiting_title_written_confirm := true,
        awaiting_candidate_choice := false,
        candidates := [] } }
    emit s (combinedQuestion env c.id c.title) "tl_search_confirm_title" none
  | some .noneRes =>
    let s := { s with
      current := { s.current with
        awaiting_candidate_choice := false, candidates := [] } }
    askIdentQuestion s o "tl_search_title_only"
  | some (.freeTitleRes mention) =>
    let cand := candidatesOf env mention 10
    let pick := o.resolveTL mention
    if jsTruthy pick.match_id ∧ pick.confidence ≥ 0.6 then
      let s := { s with
        current := { s.current with
          pending_tl_candidate := some ⟨pick.match_id.getD "", pick.match_title.getD ""⟩,
          awaiting_title_written_confirm := true,
          awaiting_candidate_choice := false,
          candidates := [] } }
      emit s (combinedQuestion env (pick.match_id.getD "") (pick.match_title.getD ""))
        "tl_search_confirm_title" none
    else if pick.need_clarify ∧ jsTruthy pick.clarify_question then
      askClarifyShortlist s (pick.clarify_question.getD "") cand
    else
      askIdentQuestion s o "tl_search_title_only"
  | none =>
    emit s candidateRemindMsg "tl_search_remind" none

/-- The combined title/written confirmation block (lines 1228-1309). -/
def confirmBranch (env : Env) (s : SessionState) (o : OracleOut) (p : PendingTL) :
    SessionState × Reply :=
  match o.combined with
  | (.yes, some true) =>
    let s := { s with
      stage := "in_tl",
      current := { s.current with
        tl_id := some p.id, tl_title := some p.title,
        pending_tl_candidate := none,
        awaiting_title_written_confirm := false,
        awaiting_written_confirm := false,
        last_confirm_tl := some p.id,
        in_tl_rounds := 0, tl_facts := {} } }
    let qr := llmNextTLQuestion env.phase3 s.asked_log o.nextTLQRaw o.r1
    let s := pushAsked s qr.1
    let intro := "Lass uns über „" ++ cleanTitle p.title ++ "“ sprechen. " ++ qr.1
    emit s intro "in_tl_first"
      (some "Hohe Sicherheit: bereits geschrieben → direkter Einstieg.")
  | (.yes, some false) =>
    let dec := match s.current.last_confirm_tl with
      | some t =>
        if t = "" then s.current.declinedWritten
        else if s.current.declinedWritten.contains t then s.current.declinedWritten
        else s.current.declinedWritten ++ [t]
      | none => s.current.declinedWritten
    let s := { s with
      stage := "tl_search",
      current := { s.current with
        declinedWritten := dec,
        tl_id := none, tl_title := none,
        awaiting_written_confirm := false,
        awaiting_title_written_confirm := false,
        last_confirm_tl := none,
        pending_tl_candidate := none,
        in_tl_rounds := 0 } }
    askIdentQuestion s o "tl_search_title_only"
  | (.yes, none) =>
    let s := { s with
      current := { s.current with
        awaiting_written_confirm := true,
        awaiting_title_written_confirm := false } }
    emit s writtenReprompt "in_tl_first" none
  | (.no, _) =>
    let s := { s with
      current := { s.current with
        pending_tl_candidate := none,
        awaiting_title_written_confirm := false } }
    askIdentQuestion s o "tl_search_title_only"
  | (.unclear, _) =>
    emit s (combinedQuestion env p.id p.title) "tl_search_confirm_title" none

/-- Stage A `await_semester_progress` (lines 1312-1332). -/
def stageIntroBranch (env : Env) (s : SessionState) (o : OracleOut) :
    SessionState × Reply :=
  let io := llmIntroClamp o.introRaw
  let s := { s with
    general := ⟨io.semester, io.progress_percent⟩,
    stage := "general",
    general_q := 0,
    current := { s.current with awaiting_candidate_choice := false, candidates := [] } }
  let qr := llmPickPhaseQuestion env.phase1 s.asked_log o.phaseQRaw o.r1
  let qr := if qr.1 = "" then
    (pickRandomFromPool env.phase1 s.asked_log o.r2, "Pool-Fallback.") else qr
  let s := pushAsked s qr.1
  emit s qr.1 "intro_next_general" (some qr.2)

/-- The closing general-question path of stage B (lines 1427-1435). -/
def generalAskNext (env : Env) (s : SessionState) (o : OracleOut) :
    SessionState × Reply :=
  let qr := llmPickPhaseQuestion env.phase1 s.asked_log o.phaseQRaw o.r1
  let qFinal := if qr.1 = "" then pickRandomFromPool env.phase1 s.asked_log o.r2 else qr.1
  let s := pushAsked s qFinal
  let s := { s with general_q := s.general_q + 1 }
  let s := if s.general_q ≥ 2 then { s with stage := "tl_search" } else s
  emit s qFinal "general_more" (some (jsStrOr (some qr.2) "Pool-Fallback."))

/-- Stage B `general` (lines 1335-1436). -/
def stageGeneralBranch (env : Env) (s : SessionState) (o : OracleOut) :
    SessionState × Reply :=
  let det := o.detect
  let s := if jsTruthy det.found_area then
    { s with current := { s.current with area := det.found_area } } else s
  let multi := match det.found_tl_list with
    | some l => decide (l.length > 1)
    | none => false
  let resolved := if multi then resolveMentions o (det.found_tl_list.getD []) else []
  if multi && !resolved.isEmpty then
    match pickLeastKnownOfResolved env resolved with
    | some best =>
      if wroteProbHigh det then enterInTlDirect env s o best.id best.title
      else askCombinedConfirm env s (some "tl_search") best.id best.title
    | none => generalAskNext env s o
  else
    let mention : Option String :=
      if jsTruthy det.found_tl_text then det.found_tl_text
      else match det.found_tl_list with
        | some l => if l.length = 1 then l.head? else none
        | none => none
    match mention with
    | some m =>
      let pick := o.resolveTL m
      if jsTruthy pick.match_id ∧ pick.confidence ≥ 0.6 then
        if wroteProbHigh det then
          enterInTlDirect env s o (pick.match_id.getD "") (pick.match_title.getD "")
        else
          askCombinedConfirm env s (some "tl_search")
            (pick.match_id.getD "") (pick.match_title.getD "")
      else generalAskNext env s o
    | none => generalAskNext env s o

/-- Stage C `tl_search` (lines 1439-1571). -/
def stageTlSearchBranch (env : Env) (s : SessionState) (o : OracleOut) :
    SessionState × Reply :=
  let det := o.detect
  let s := if jsTruthy det.found_area then
    { s with current := { s.current with area := det.found_area } } else s
  if det.temporal_hint = "future" then
    askIdentQuestion s o "tl_search_future_redirect"
  else
    let multi := match det.found_tl_list with
      | some l => decide (l.length > 1)
      | none => false
    let resolved := if multi then resolveMentions o (det.found_tl_list.getD []) else []
    if multi && !resolved.isEmpty then
      match pickLeastKnownOfResolved env resolved with
      | some best =>
        if wroteProbHigh det then enterInTlDirect env s o best.id best.title
        else askCombinedConfirm env s none best.id best.title
      | none => askIdentQuestion s o "tl_search_title_only"
    else
      let mention : Option String :=
        if jsTruthy det.found_tl_text then det.found_tl_text
        else match det.found_tl_list with
          | some l => l.head?
          | none => none
      match mention with
      | none => askIdentQuestion s o "tl_search_title_only"
      | some m =>
        let cand := candidatesOf env m 10
        let pick := o.resolveTL m
        if jsTruthy pick.match_id ∧ pick.confidence ≥ 0.6 then
          if wroteProbHigh det then
            enterInTlDirect env s o (pick.match_id.getD "") (pick.match_title.getD "")
          else
            askCombinedConfirm env s none
              (pick.match_id.getD "") (pick.match_title.getD "")
        else if pick.need_clarify ∧ jsTruthy pick.clarify_question then
          askClarifyShortlist s (pick.clarify_question.getD "") cand
        else askIdentQuestion s o "tl_search_title_only"

/-- The question selection of the in_tl fact-collection path
(lines 1649-1662): take the oracle's next question, fall back to a pool
draw when empty, and substitute a fresh pool draw when the chosen
question was already asked. -/
def inTlNextQuestion (env : Env) (askedLog : List String) (o : OracleOut) : String :=
  let qr := llmNextTLQuestion env.phase3 askedLog o.nextTLQRaw o.r1
  let qFinal := if qr.1 = "" then pickRandomFromPool env.phase3 askedLog o.r2 else qr.1
  if askedLog.contains qFinal then pickRandomFromPool env.phase3 askedLog o.r3 else qFinal

/-- Stage D `in_tl` (lines 1574-1667). -/
def stageInTlBranch (env : Env) (s : SessionState) (o : OracleOut) :
    SessionState × Reply :=
  let s := { s with current := { s.current with in_tl_rounds := s.current.in_tl_rounds + 1 } }
  if s.current.in_tl_rounds > MAX_IN_TL_ROUNDS then
    let s := { s with
      stage := "wrap_up",
      current := { s.current with in_tl_rounds := 0 } }
    let qr := llmPickPhaseQuestion env.phase4 s.asked_log o.phaseQRaw o.r1
    let qFinal := if qr.1 = "" then pickRandomFromPool env.phase4 s.asked_log o.r2 else qr.1
    let s := pushAsked s qFinal
    emit s qFinal "wrap_up" (some (jsStrOr (some qr.2) "Pool-Fallback."))
  else if s.current.awaiting_written_confirm then
    match o.written with
    | some true =>
      let s := { s with current := { s.current with awaiting_written_confirm := false } }
      let qr := llmNextTLQuestion env.phase3 s.asked_log o.nextTLQRaw o.r1
      let s := pushAsked s qr.1
      emit s qr.1 "in_tl_first" (some qr.2)
    | some false =>
      let dec := match s.current.last_confirm_tl with
        | some t =>
          if t = "" then s.current.declinedWritten
          else if s.current.declinedWritten.contains t then s.current.declinedWritten
          else s.current.declinedWritten ++ [t]
        | none => s.current.declinedWritten
      let s := { s with
        stage := "tl_search",
        current := { s.current with
          declinedWritten := dec,
          tl_id := none, tl_title := none,
          awaiting_written_confirm := false,
          last_confirm_tl := none,
          in_tl_rounds := 0 } }
      askIdentQuestion s o "tl_search_title_only"
    | none =>
      emit s writtenReprompt "in_tl_first" none
  else
    let s := if jsTruthy s.current.tl_title then
      { s with current := { s.current with tl_facts := spreadFacts s.current.tl_facts o.extract } }
      else s
    let qr := llmNextTLQuestion env.phase3 s.asked_log o.nextTLQRaw o.r1
    let useQ := inTlNextQuestion env s.asked_log o
    let s := pushAsked s useQ
    emit s useQ "in_tl_next" (some (jsStrOr (some qr.2) "Pool-Fallback."))

/-- Stage E `wrap_up` (lines 1670-1684). -/
def stageWrapUpBranch (env : Env) (s : SessionState) (o : OracleOut) :
    SessionState × Reply :=
  let qr := llmPickPhaseQuestion env.phase4 s.asked_log o.phaseQRaw o.r1
  let qFinal := if qr.1 = "" then pickRandomFromPool env.phase4 s.asked_log o.r2 else qr.1
  let s := pushAsked s qFinal
  let s := { s with stage := "tl_search" }
  emit s qFinal "wrap_up" (some (jsStrOr (some qr.2) "Pool-Fallback."))

def stageDispatch (env : Env) (s : SessionState) (o : OracleOut) :
    SessionState × Reply :=
  if s.stage = "await_semester_progress" then stageIntroBranch env s o
  else if s.stage = "general" then stageGeneralBranch env s o
  else if s.stage = "tl_search" then stageTlSearchBranch env s o
  else if s.stage = "in_tl" then stageInTlBranch env s o
  else if s.stage = "wrap_up" then stageWrapUpBranch env s o
  else emit s fallbackStageMsg "tl_search_title_only" none

/-- The handler body after the user push and the `llm_disabled` check
(lines 1131-1689): abort intent, open candidate choice, combined
confirmation, then the stage dispatch. -/
def retrieveMain (env : Env) (s : SessionState) (o : OracleOut) :
    SessionState × Reply :=
  if o.intent = Intent.abort then abortBranch s o
  else if s.current.awaiting_candidate_choice ∧ s.current.candidates ≠ [] then
    candidateChoiceBranch env s o
  else match s.current.pending_tl_candidate with
    | some p =>
      if s.current.awaiting_title_written_confirm then confirmBranch env s o p
      else stageDispatch env s o
    | none => stageDispatch env s o

/-- The user turn push at lines 1108-1114 (`String(question).trim()`). -/
def pushUser (s : SessionState) (userText : String) : SessionState :=
  { s with transcript := pushTranscript s.transcript "user" (jsTrim userText) none }

/-- One handled `/api/retrieve` turn (lines 1105-1720). -/
def retrieveStep (env : Env) (s0 : SessionState) (outcome : OracleOutcome)
    (userText : String) : SessionState × Reply :=
  let s := pushUser s0 userText
  if s.flags.llm_disabled then
    let msg := jsStrOr s.flags.llm_disabled_reason llmDisabledDefaultMsg
    emit s msg "system_quota" none
  else
    match outcome with
    | .ok o => retrieveMain env s o
    | .quota =>
      let s := { s with flags := ⟨true, some quotaReasonMsg⟩ }
      emit s quotaReasonMsg "system_quota" none
    | .rateLimit => emit s rateLimitMsg "system_rate" none
    | .otherErr => emit s techErrorMsg "system_error" none

/-! ## Claim theorems for the transcript and the intro classifier -/

/-- **C10** `pushTranscript` drops a turn whose role and content both
equal those of the immediately preceding entry (its `meta` is ignored),
so the no-adjacent-duplicates invariant of the transcript is preserved,
and pushing the same role/content twice in a row (with any metas) is the
same as pushing it once — repeating an identical request does not grow
the transcript. -/
theorem pushTranscript_no_consecutive_dup (t : List TranscriptEntry)
    (r c : String) (m m' : Option (String × String))
    (h : noAdjDup t) :
    noAdjDup (pushTranscript t r c m)
    ∧ pushTranscript (pushTranscript t r c m) r c m' = pushTranscript t r c m := by
  constructor
  · unfold pushTranscript
    cases hl : t.getLast? with
    | none =>
      have ht : t = [] := List.getLast?_eq_none_iff.mp hl
      subst ht
      simp [noAdjDup]
    | some last =>
      by_cases hc : last.role = r ∧ last.content = c
      · simpa [hc] using h
      · simp only [hc, if_neg, not_false_eq_true]
        unfold noAdjDup at h ⊢
        rw [List.chain'_append]
        refine ⟨h, by simp, ?_⟩
        intro x hx y hy
        rw [hl, Option.mem_def, Option.some.injEq] at hx
        simp only [List.head?_cons, Option.mem_def, Option.some.injEq] at hy
        subst hx
        subst hy
        simpa using hc
  · have hstep : ∀ u : List TranscriptEntry, u.getLast? = some ⟨r, c, m⟩ →
        pushTranscript u r c m' = u := by
      intro u hu
      unfold pushTranscript
      rw [hu]
      simp
    cases hl : t.getLast? with
    | none =>
      have ht : t = [] := List.getLast?_eq_none_iff.mp hl
      subst ht
      have h1 : pushTranscript [] r c m = [⟨r, c, m⟩] := rfl
      rw [h1]
      exact hstep _ rfl
    | some last =>
      by_cases hc : last.role = r ∧ last.content = c
      · have h1 : pushTranscript t r c m = t := by
          unfold pushTranscript
          rw [hl]
          simp [hc]
        rw [h1]
        unfold pushTranscript
        rw [hl]
        simp [hc]
      · have h1 : pushTranscript t r c m = t ++ [⟨r, c, m⟩] := by
          unfold pushTranscript
          rw [hl]
          simp [hc]
        rw [h1]
        exact hstep _ (List.getLast?_concat t)

/-- Witness for `pushTranscript_no_consecutive_dup`: a concrete
transcript with a repeated assistant turn. -/
theorem pushTranscript_no_consecutive_dup_witness :
    noAdjDup (pushTranscript [⟨"user", "hi", none⟩] "assistant" "Evaluation gestartet." none)
    ∧ pushTranscript
        (pushTranscript [⟨"user", "hi", none⟩] "assistant" "Evaluation gestartet." none)
        "assistant" "Evaluation gestartet." (some ("evaluation", "x"))
      = pushTranscript [⟨"user", "hi", none⟩] "assistant" "Evaluation gestartet." none := by
  have h := pushTranscript_no_consecutive_dup [⟨"user", "hi", none⟩]
    "assistant" "Evaluation gestartet." none (some ("evaluation", "x"))
    (by unfold noAdjDup; simp)
  exact h

/-- **C4 (counterexample)** The claim says an out-of-range
`progress_percent` is clamped to null.  The code instead coerces it into
the range: an oracle payload of 150 yields 100, not null. -/
theorem intro_progress_not_nulled_cex :
    (llmIntroClamp { progress_percent := some 150 }).progress_percent = some 100
    ∧ (llmIntroClamp { progress_percent := some 150 }).progress_percent ≠ none := by
  constructor
  · show some (max 0 (min 100 ((toInt32 (jsTrunc 150) : ℚ)))) = some 100
    norm_num [jsTrunc, toInt32]
  · show some (max 0 (min 100 ((toInt32 (jsTrunc 150) : ℚ)))) ≠ none
    simp

/-- **C4 (amended)** The intro classifier returns a semester in `1..20`
or null and a progress percentage in `0..100` or null.  An out-of-range
semester becomes null; a non-null progress percentage is *coerced into*
`0..100` (32-bit truncation, then min/max), never nulled. -/
theorem llmIntro_clamp_amended (p : IntroRaw) :
    ((llmIntroClamp p).semester = none
      ∨ ∃ s, (llmIntroClamp p).semester = some s ∧ 1 ≤ s ∧ s ≤ 20)
    ∧ ((llmIntroClamp p).progress_percent = none
      ∨ ∃ q, (llmIntroClamp p).progress_percent = some q ∧ 0 ≤ q ∧ q ≤ 100)
    ∧ (∀ s, p.semester = some s → s < 1 ∨ 20 < s → (llmIntroClamp p).semester = none)
    ∧ (∀ q, p.progress_percent = some q →
        (llmIntroClamp p).progress_percent
          = some (max 0 (min 100 ((toInt32 (jsTrunc q) : ℚ))))) := by
  refine ⟨?_, ?_, ?_, ?_⟩
  · cases hs : p.semester with
    | none => left; simp [llmIntroClamp, hs]
    | some s =>
      by_cases hr : s < 1 ∨ s > 20
      · left
        simp only [llmIntroClamp, hs]
        rw [if_pos hr]
      · right
        push_neg at hr
        refine ⟨s, ?_, hr.1, hr.2⟩
        simp only [llmIntroClamp, hs]
        rw [if_neg (by push_neg; exact hr)]
  · cases hq : p.progress_percent with
    | none => left; simp [llmIntroClamp, hq]
    | some q =>
      right
      refine ⟨max 0 (min 100 ((toInt32 (jsTrunc q) : ℚ))), ?_,
        le_max_left 0 _, max_le (by norm_num) (min_le_left 100 _)⟩
      simp [llmIntroClamp, hq]
  · intro s hs hr
    simp only [llmIntroClamp, hs]
    rw [if_pos hr]
  · intro q hq
    simp [llmIntroClamp, hq]

/-- Witness for `llmIntro_clamp_amended`: semester 25 is clamped to null
while progress 150 stays non-null. -/
theorem llmIntro_clamp_amended_witness :
    (llmIntroClamp { semester := some 25, progress_percent := some 150 }).semester = none := by
  have h := llmIntro_clamp_amended { semester := some 25, progress_percent := some 150 }
  exact h.2.2.1 25 rfl (Or.inr (by norm_num))

/-! ## Claim theorems for the dialogue controller -/

theorem ensureIntroGreeting_flags (x : SessionState) :
    (ensureIntroGreeting x).flags = x.flags := by
  unfold ensureIntroGreeting
  split
  · rfl
  · simp [addAssistantTurn]

/-- **C8** A quota-exhausted oracle error is sticky: it sets
`flags.llm_disabled` with the user-visible quota reason, and every
subsequent turn of a disabled session short-circuits to the stored
reason without invoking the oracle (the result does not depend on the
oracle outcome) and without changing stage or flags, until a force
start/reset clears the flag. -/
theorem quota_sticky (env : Env) (s : SessionState) (oc : OracleOutcome) (u : String) :
    (s.flags.llm_disabled = true →
      (retrieveStep env s oc u).1.stage = s.stage
      ∧ (retrieveStep env s oc u).1.flags = s.flags
      ∧ (retrieveStep env s oc u).2.answer
          = jsStrOr s.flags.llm_disabled_reason llmDisabledDefaultMsg
      ∧ ∀ oc' : OracleOutcome, retrieveStep env s oc u = retrieveStep env s oc' u)
    ∧ (s.flags.llm_disabled = false →
      (retrieveStep env s OracleOutcome.quota u).1.flags
          = ⟨true, some quotaReasonMsg⟩
      ∧ (retrieveStep env s OracleOutcome.quota u).2.answer = quotaReasonMsg)
    ∧ (∀ s' : SessionState, (interviewStart (some s') true).flags = ⟨false, none⟩) := by
  refine ⟨?_, ?_, ?_⟩
  · intro hdis
    have hred : ∀ oc'' : OracleOutcome, retrieveStep env s oc'' u
        = emit (pushUser s u)
            (jsStrOr (pushUser s u).flags.llm_disabled_reason llmDisabledDefaultMsg)
            "system_quota" none := by
      intro oc''
      unfold retrieveStep
      rw [if_pos (by simpa [pushUser] using hdis)]
    rw [hred oc]
    refine ⟨by simp [emit, addAssistantTurn, pushUser], by simp [emit, addAssistantTurn, pushUser],
      by simp [emit, pushUser], ?_⟩
    intro oc'
    rw [hred oc']
  · intro hdis
    have hred : retrieveStep env s OracleOutcome.quota u
        = emit { pushUser s u with flags := ⟨true, some quotaReasonMsg⟩ }
            quotaReasonMsg "system_quota" none := by
      unfold retrieveStep
      rw [if_neg (by simp [pushUser, hdis])]
    rw [hred]
    exact ⟨by simp [emit, addAssistantTurn], by simp [emit]⟩
  · intro s'
    show (ensureIntroGreeting (forceResetSession s')).flags = ⟨false, none⟩
    rw [ensureIntroGreeting_flags]
    rfl

/-- Witness for `quota_sticky`: a disabled session echoes its stored
reason, and a quota outcome on an enabled session flips the flag. -/
theorem quota_sticky_witness :
    (retrieveStep {} { flags := ⟨true, some "R"⟩ } (.ok {}) "x").2.answer = "R"
    ∧ (retrieveStep {} {} .quota "x").1.flags.llm_disabled = true := by
  have h1 := (quota_sticky {} { flags := ⟨true, some "R"⟩ } (.ok {}) "x").1 rfl
  have h2 := (quota_sticky {} {} (.ok {}) "x").2.1 rfl
  constructor
  · rw [h1.2.2.1]
    rfl
  · rw [h2.1]

/-- On an enabled session with no abort intent, no open candidate
choice and no pending combined confirmation, a handled turn is the stage
dispatch applied to the state after the user push. -/
theorem retrieveStep_ok_dispatch (env : Env) (s : SessionState) (o : OracleOut)
    (u : String)
    (hdis : s.flags.llm_disabled = false)
    (hint : o.intent = Intent.cont)
    (hcand : s.current.awaiting_candidate_choice = false)
    (hconf : s.current.awaiting_title_written_confirm = false) :
    retrieveStep env s (.ok o) u = stageDispatch env (pushUser s u) o := by
  unfold retrieveStep
  rw [if_neg (by simp [pushUser, hdis])]
  unfold retrieveMain
  simp only []
  rw [if_neg (by rw [hint]; simp)]
  rw [if_neg (by simp [pushUser, hcand])]
  have hc3 : (pushUser s u).current.awaiting_title_written_confirm = false := by
    simpa [pushUser] using hconf
  cases hp : (pushUser s u).current.pending_tl_candidate with
  | none => rfl
  | some p =>
    simp only []
    rw [if_neg (by rw [hc3]; simp)]

/-- Under the same guards, an `in_tl` turn runs the in_tl branch. -/
theorem retrieveStep_in_tl (env : Env) (s : SessionState) (o : OracleOut)
    (u : String)
    (hdis : s.flags.llm_disabled = false)
    (hint : o.intent = Intent.cont)
    (hcand : s.current.awaiting_candidate_choice = false)
    (hconf : s.current.awaiting_title_written_confirm = false)
    (hstage : s.stage = "in_tl") :
    retrieveStep env s (.ok o) u = stageInTlBranch env (pushUser s u) o := by
  rw [retrieveStep_ok_dispatch env s o u hdis hint hcand hconf]
  have hst : (pushUser s u).stage = "in_tl" := by simpa [pushUser] using hstage
  unfold stageDispatch
  rw [hst]
  simp

theorem pushUser_current (s : SessionState) (u : String) :
    (pushUser s u).current = s.current := rfl

theorem pushUser_stage (s : SessionState) (u : String) :
    (pushUser s u).stage = s.stage := rfl

/-- The 7th-round overflow of the in_tl branch (lines 1576-1591). -/
theorem stageInTlBranch_overflow (env : Env) (s : SessionState) (o : OracleOut)
    (h6 : 6 ≤ s.current.in_tl_rounds) :
    (stageInTlBranch env s o).1.stage = "wrap_up"
    ∧ (stageInTlBranch env s o).1.current.in_tl_rounds = 0
    ∧ (stageInTlBranch env s o).2.code = "wrap_up" := by
  simp only [stageInTlBranch]
  rw [if_pos (by simp only [MAX_IN_TL_ROUNDS]; omega)]
  refine ⟨by simp [emit, addAssistantTurn, pushAsked],
    by simp [emit, addAssistantTurn, pushAsked],
    by simp [emit]⟩

/-- The round increment of every non-overflow in_tl turn that does not
leave via the written-decline path (lines 1574-1667). -/
theorem stageInTlBranch_increment (env : Env) (s : SessionState) (o : OracleOut)
    (hlt : s.current.in_tl_rounds < 6)
    (hnf : ¬(s.current.awaiting_written_confirm = true ∧ o.written = some false)) :
    (stageInTlBranch env s o).1.current.in_tl_rounds = s.current.in_tl_rounds + 1
    ∧ (stageInTlBranch env s o).1.stage = s.stage := by
  simp only [stageInTlBranch]
  rw [if_neg (by simp only [MAX_IN_TL_ROUNDS]; omega)]
  by_cases haw : s.current.awaiting_written_confirm = true
  · rw [if_pos (by simpa using haw)]
    cases hw : o.written with
    | some b =>
      cases b with
      | true =>
        simp only []
        exact ⟨by simp [emit, addAssistantTurn, pushAsked],
          by simp [emit, addAssistantTurn, pushAsked]⟩
      | false => exact absurd ⟨haw, hw⟩ hnf
    | none =>
      simp only []
      exact ⟨by simp [emit, addAssistantTurn],
        by simp [emit, addAssistantTurn]⟩
  · rw [if_neg (by simpa using haw)]
    constructor
    · split <;> simp [emit, addAssistantTurn, pushAsked]
    · split <;> simp [emit, addAssistantTurn, pushAsked]

/-- **C3** In stage `in_tl`, every handled user turn (continue intent,
no open candidate choice or combined confirmation) increments
`in_tl_rounds`, and on the turn where the incremented counter exceeds
`MAX_IN_TL_ROUNDS` (6) — the 7th consecutive in_tl turn — the controller
resets it to 0, sets the stage to `wrap_up`, and emits the phase-4
transition question (assistant code "wrap_up").  Below 6 rounds the
counter becomes its old value plus one and the stage stays `in_tl`,
except on the written-decline exit. -/
theorem in_tl_round_limit (env : Env) (s : SessionState) (o : OracleOut) (u : String)
    (hdis : s.flags.llm_disabled = false)
    (hint : o.intent = Intent.cont)
    (hcand : s.current.awaiting_candidate_choice = false)
    (hconf : s.current.awaiting_title_written_confirm = false)
    (hstage : s.stage = "in_tl") :
    (6 ≤ s.current.in_tl_rounds →
      (retrieveStep env s (.ok o) u).1.stage = "wrap_up"
      ∧ (retrieveStep env s (.ok o) u).1.current.in_tl_rounds = 0
      ∧ (retrieveStep env s (.ok o) u).2.code = "wrap_up")
    ∧ (s.current.in_tl_rounds < 6 →
      ¬(s.current.awaiting_written_confirm = true ∧ o.written = some false) →
      (retrieveStep env s (.ok o) u).1.current.in_tl_rounds = s.current.in_tl_rounds + 1
      ∧ (retrieveStep env s (.ok o) u).1.stage = "in_tl") := by
  rw [retrieveStep_in_tl env s o u hdis hint hcand hconf hstage]
  constructor
  · intro h6
    exact stageInTlBranch_overflow env (pushUser s u) o (by rwa [pushUser_current])
  · intro hlt hnf
    have h := stageInTlBranch_increment env (pushUser s u) o
      (by rwa [pushUser_current]) (by rwa [pushUser_current])
    rw [pushUser_current, pushUser_stage, hstage] at h
    exact h

/-- Witness for `in_tl_round_limit`: a session at 6 depth rounds
transitions to wrap_up on the next turn, and one at 0 rounds counts to 1. -/
theorem in_tl_round_limit_witness :
    ((retrieveStep {} { stage := "in_tl", current := { in_tl_rounds := 6 } }
        (.ok {}) "x").1.stage = "wrap_up"
      ∧ (retrieveStep {} { stage := "in_tl", current := { in_tl_rounds := 6 } }
        (.ok {}) "x").1.current.in_tl_rounds = 0
      ∧ (retrieveStep {} { stage := "in_tl", current := { in_tl_rounds := 6 } }
        (.ok {}) "x").2.code = "wrap_up")
    ∧ ((retrieveStep {} { stage := "in_tl" } (.ok {}) "x").1.current.in_tl_rounds = 1
      ∧ (retrieveStep {} { stage := "in_tl" } (.ok {}) "x").1.stage = "in_tl") := by
  constructor
  · exact (in_tl_round_limit {} { stage := "in_tl", current := { in_tl_rounds := 6 } }
      {} "x" rfl rfl rfl rfl rfl).1 (by decide)
  · exact (in_tl_round_limit {} { stage := "in_tl" } {} "x" rfl rfl rfl rfl rfl).2
      (by decide) (by decide)

theorem getD_mem {α : Type} (l : List α) (i : Nat) (d : α) (h : i < l.length) :
    l.getD i d ∈ l := by
  rw [List.getD_eq_getElem?_getD, List.getElem?_eq_getElem h]
  exact List.getElem_mem h

/-- When the pool still holds an unasked question, the pool draw never
repeats an asked question. -/
theorem pickRandomFromPool_not_mem (pool asked : List String) (r : Nat)
    (h : pool.filter (fun q => !(asked.contains q)) ≠ []) :
    pickRandomFromPool pool asked r ∉ asked := by
  unfold pickRandomFromPool
  have hne : (pool.filter (fun q => !(asked.contains q))).isEmpty = false := by
    simpa [List.isEmpty_iff] using h
  simp only [hne, Bool.false_eq_true, if_false]
  have hlen : 0 < (pool.filter (fun q => !(asked.contains q))).length :=
    List.length_pos.mpr h
  have hmem := getD_mem (pool.filter (fun q => !(asked.contains q)))
    (r % (pool.filter (fun q => !(asked.contains q))).length) "" (Nat.mod_lt r hlen)
  have hf := List.of_mem_filter hmem
  intro hin
  have hc : asked.contains ((pool.filter (fun q => !(asked.contains q))).getD
      (r % (pool.filter (fun q => !(asked.contains q))).length) "") = true :=
    List.elem_iff.mpr hin
  rw [hc] at hf
  simp at hf

/-- The dedup guard of the in_tl fact-collection path: with an unasked
phase-3 pool question available, the emitted question is never a repeat. -/
theorem asked_guard_not_mem (asked pool : List String) (qFinal : String) (r3 : Nat)
    (hpool : pool.filter (fun q => !(asked.contains q)) ≠ []) :
    (if asked.contains qFinal then pickRandomFromPool pool asked r3 else qFinal)
      ∉ asked := by
  split
  · exact pickRandomFromPool_not_mem _ _ _ hpool
  next hcf =>
    intro hin
    exact hcf (List.elem_iff.mpr hin)

theorem inTlNextQuestion_not_mem (env : Env) (askedLog : List String) (o : OracleOut)
    (hpool : env.phase3.filter (fun q => !(askedLog.contains q)) ≠ []) :
    inTlNextQuestion env askedLog o ∉ askedLog := by
  exact asked_guard_not_mem askedLog env.phase3 _ o.r3 hpool

theorem pushUser_asked (s : SessionState) (u : String) :
    (pushUser s u).asked_log = s.asked_log := rfl

/-- The fact-collection path appends exactly the guarded question. -/
theorem stageInTlBranch_fact_asked (env : Env) (s : SessionState) (o : OracleOut)
    (hlt : s.current.in_tl_rounds < 6)
    (haw : s.current.awaiting_written_confirm = false)
    (hpool : env.phase3.filter (fun q => !(s.asked_log.contains q)) ≠ []) :
    ∃ q, (stageInTlBranch env s o).1.asked_log = s.asked_log ++ [q]
      ∧ q ∉ s.asked_log := by
  refine ⟨inTlNextQuestion env s.asked_log o, ?_,
    inTlNextQuestion_not_mem env s.asked_log o hpool⟩
  simp only [stageInTlBranch]
  rw [if_neg (by simp only [MAX_IN_TL_ROUNDS]; omega)]
  rw [if_neg (by simp [haw])]
  split <;> simp [emit, addAssistantTurn, pushAsked]

/-- **C2 (counterexample)** The claim says every path that pushes to
`asked_log` replaces duplicates before emitting.  The general-stage path
(lines 1427-1431) pushes the oracle's question unchecked: with `"Q"`
already asked and the oracle returning `"Q"` again, `asked_log` ends
with two equal entries. -/
theorem asked_log_duplicate_cex :
    (retrieveStep {} { stage := "general", asked_log := ["Q"] }
      (.ok { phaseQRaw := some ⟨"Q", "r"⟩ }) "hi").1.asked_log = ["Q", "Q"]
    ∧ ¬ (retrieveStep {} { stage := "general", asked_log := ["Q"] }
      (.ok { phaseQRaw := some ⟨"Q", "r"⟩ }) "hi").1.asked_log.Nodup := by
  constructor
  · rfl
  · decide

/-- **C2 (amended)** Only the in_tl fact-collection path guards
`asked_log` against repeats: there, a question that would duplicate an
entry of `asked_log` is replaced by a phase-3 pool question, and
whenever the pool still contains an unasked question the appended entry
is fresh, so a duplicate-free `asked_log` stays duplicate-free on that
path.  All other asked_log pushes append the oracle's question without
any check and can create duplicates. -/
theorem asked_log_in_tl_guard (env : Env) (s : SessionState) (o : OracleOut)
    (u : String)
    (hdis : s.flags.llm_disabled = false)
    (hint : o.intent = Intent.cont)
    (hcand : s.current.awaiting_candidate_choice = false)
    (hconf : s.current.awaiting_title_written_confirm = false)
    (hstage : s.stage = "in_tl")
    (hlt : s.current.in_tl_rounds < 6)
    (haw : s.current.awaiting_written_confirm = false)
    (hpool : env.phase3.filter (fun q => !(s.asked_log.contains q)) ≠ []) :
    ∃ q, (retrieveStep env s (.ok o) u).1.asked_log = s.asked_log ++ [q]
      ∧ q ∉ s.asked_log
      ∧ (s.asked_log.Nodup → (retrieveStep env s (.ok o) u).1.asked_log.Nodup) := by
  rw [retrieveStep_in_tl env s o u hdis hint hcand hconf hstage]
  obtain ⟨q, hq, hnm⟩ := stageInTlBranch_fact_asked env (pushUser s u) o
    (by rwa [pushUser_current]) (by rwa [pushUser_current])
    (by rwa [pushUser_asked])
  rw [pushUser_asked] at hq hnm
  refine ⟨q, hq, hnm, ?_⟩
  intro hnd
  rw [hq]
  simpa [List.nodup_append] using ⟨hnd, hnm⟩

/-- Witness for `asked_log_in_tl_guard`: the oracle repeats an asked
question, the guard substitutes the unasked pool question. -/
theorem asked_log_in_tl_guard_witness :
    ∃ q, (retrieveStep { phase3 := ["P"] }
        { stage := "in_tl", asked_log := ["Q"] }
        (.ok { nextTLQRaw := some ⟨"Q", "r"⟩ }) "x").1.asked_log = ["Q"] ++ [q]
      ∧ q ∉ ["Q"]
      ∧ ((["Q"] : List String).Nodup →
          (retrieveStep { phase3 := ["P"] }
            { stage := "in_tl", asked_log := ["Q"] }
            (.ok { nextTLQRaw := some ⟨"Q", "r"⟩ }) "x").1.asked_log.Nodup) := by
  exact asked_log_in_tl_guard { phase3 := ["P"] }
    { stage := "in_tl", asked_log := ["Q"] }
    { nextTLQRaw := some ⟨"Q", "r"⟩ } "x"
    rfl rfl rfl rfl rfl (by decide) rfl (by decide)

/-! ### C5: the pending-candidate / combined-confirmation invariant -/

/-- The direction of the claimed equivalence that the code maintains:
whenever the combined confirmation is awaited, a pending candidate is
set. -/
def pendingInv (s : SessionState) : Prop :=
  s.current.awaiting_title_written_confirm = true →
    s.current.pending_tl_candidate ≠ none

theorem pendingInv_abort (s : SessionState) (o : OracleOut) :
    pendingInv (abortBranch s o).1 := by
  simp [pendingInv, abortBranch, emit, addAssistantTurn, pushAsked]

theorem pendingInv_askIdent (s : SessionState) (o : OracleOut) (code : String)
    (h : pendingInv s) : pendingInv (askIdentQuestion s o code).1 := by
  simpa [pendingInv, askIdentQuestion, emit, addAssistantTurn, pushAsked] using h

theorem pendingInv_enterInTl (env : Env) (s : SessionState) (o : OracleOut)
    (tid ttitle : String) (h : pendingInv s) :
    pendingInv (enterInTlDirect env s o tid ttitle).1 := by
  simpa [pendingInv, enterInTlDirect, emit, addAssistantTurn, pushAsked] using h

theorem pendingInv_askCombined (env : Env) (s : SessionState) (ns : Option String)
    (tid ttitle : String) : pendingInv (askCombinedConfirm env s ns tid ttitle).1 := by
  simp [pendingInv, askCombinedConfirm, emit, addAssistantTurn]

theorem pendingInv_clarify (s : SessionState) (clarify : String) (cand : List ScoredTL)
    (h : pendingInv s) : pendingInv (askClarifyShortlist s clarify cand).1 := by
  simpa [pendingInv, askClarifyShortlist, emit, addAssistantTurn] using h

theorem pendingInv_generalAskNext (env : Env) (s : SessionState) (o : OracleOut)
    (h : pendingInv s) : pendingInv (generalAskNext env s o).1 := by
  simp only [generalAskNext]
  split <;> split <;> simpa [pendingInv, emit, addAssistantTurn, pushAsked] using h

theorem pendingInv_cand (env : Env) (s : SessionState) (o : OracleOut)
    (h : pendingInv s) : pendingInv (candidateChoiceBranch env s o).1 := by
  unfold candidateChoiceBranch
  cases llmPickCandidateFromReply s.current.candidates o.pickReply with
  | none => simpa [pendingInv, emit, addAssistantTurn] using h
  | some pr =>
    cases pr with
    | picked c => simp [pendingInv, emit, addAssistantTurn]
    | noneRes =>
      apply pendingInv_askIdent
      simpa [pendingInv] using h
    | freeTitleRes m =>
      simp only []
      split
      · simp [pendingInv, emit, addAssistantTurn]
      · split
        · exact pendingInv_clarify _ _ _ h
        · exact pendingInv_askIdent _ _ _ h

theorem pendingInv_confirm (env : Env) (s : SessionState) (o : OracleOut)
    (p : PendingTL) (h : pendingInv s) : pendingInv (confirmBranch env s o p).1 := by
  unfold confirmBranch
  rcases hc : o.combined with ⟨tm, w⟩
  cases tm with
  | yes =>
    cases w with
    | some b =>
      cases b with
      | true => simp [pendingInv, emit, addAssistantTurn, pushAsked]
      | false =>
        apply pendingInv_askIdent
        simp [pendingInv]
    | none => simp [pendingInv, emit, addAssistantTurn]
  | no =>
    cases w <;>
      (apply pendingInv_askIdent; simp [pendingInv])
  | unclear =>
    cases w <;> simpa [pendingInv, emit, addAssistantTurn] using h

theorem pendingInv_stageIntro (env : Env) (s : SessionState) (o : OracleOut)
    (h : pendingInv s) : pendingInv (stageIntroBranch env s o).1 := by
  simp only [stageIntroBranch]
  split <;> simpa [pendingInv, emit, addAssistantTurn, pushAsked] using h

theorem pendingInv_stageGeneral (env : Env) (s : SessionState) (o : OracleOut)
    (h : pendingInv s) : pendingInv (stageGeneralBranch env s o).1 := by
  unfold stageGeneralBranch
  simp only []
  have h' : pendingInv (if jsTruthy o.detect.found_area then
      { s with current := { s.current with area := o.detect.found_area } } else s) := by
    split
    · simpa [pendingInv] using h
    · exact h
  generalize (if jsTruthy o.detect.found_area then
      { s with current := { s.current with area := o.detect.found_area } } else s) = s1 at h' ⊢
  repeat' split
  all_goals first
    | exact pendingInv_enterInTl _ _ _ _ _ h'
    | exact pendingInv_askCombined _ _ _ _ _
    | exact pendingInv_generalAskNext _ _ _ h'

theorem pendingInv_stageTlSearch (env : Env) (s : SessionState) (o : OracleOut)
    (h : pendingInv s) : pendingInv (stageTlSearchBranch env s o).1 := by
  unfold stageTlSearchBranch
  simp only []
  have h' : pendingInv (if jsTruthy o.detect.found_area then
      { s with current := { s.current with area := o.detect.found_area } } else s) := by
    split
    · simpa [pendingInv] using h
    · exact h
  generalize (if jsTruthy o.detect.found_area then
      { s with current := { s.current with area := o.detect.found_area } } else s) = s1 at h' ⊢
  repeat' split
  all_goals first
    | exact pendingInv_enterInTl _ _ _ _ _ h'
    | exact pendingInv_askCombined _ _ _ _ _
    | exact pendingInv_generalAskNext _ _ _ h'
    | exact pendingInv_askIdent _ _ _ h'
    | exact pendingInv_clarify _ _ _ h'

theorem pendingInv_stageInTl (env : Env) (s : SessionState) (o : OracleOut)
    (h : pendingInv s) : pendingInv (stageInTlBranch env s o).1 := by
  unfold stageInTlBranch
  simp only []
  split
  · simpa [pendingInv, emit, addAssistantTurn, pushAsked] using h
  · split
    · cases o.written with
      | some b =>
        cases b with
        | true => simpa [pendingInv, emit, addAssistantTurn, pushAsked] using h
        | false =>
          apply pendingInv_askIdent
          simpa [pendingInv] using h
      | none => simpa [pendingInv, emit, addAssistantTurn] using h
    · split <;> simpa [pendingInv, emit, addAssistantTurn, pushAsked] using h

theorem pendingInv_stageWrapUp (env : Env) (s : SessionState) (o : OracleOut)
    (h : pendingInv s) : pendingInv (stageWrapUpBranch env s o).1 := by
  simpa [pendingInv, stageWrapUpBranch, emit, addAssistantTurn, pushAsked] using h

theorem pendingInv_dispatch (env : Env) (s : SessionState) (o : OracleOut)
    (h : pendingInv s) : pendingInv (stageDispatch env s o).1 := by
  unfold stageDispatch
  split
  · exact pendingInv_stageIntro _ _ _ h
  · split
    · exact pendingInv_stageGeneral _ _ _ h
    · split
      · exact pendingInv_stageTlSearch _ _ _ h
      · split
        · exact pendingInv_stageInTl _ _ _ h
        · split
          · exact pendingInv_stageWrapUp _ _ _ h
          · simpa [pendingInv, emit, addAssistantTurn] using h

/-- **C5 (amended)** Every `/api/retrieve` path preserves the one-way
invariant "awaiting_title_written_confirm implies a pending candidate":
each path that raises the flag also sets `pending_tl_candidate`.  (The
claimed equivalence fails in the other direction, see the
counterexample: the `title yes / wrote null` reprompt clears the flag
but keeps the candidate.) -/
theorem pending_inv_preserved (env : Env) (s : SessionState) (oc : OracleOutcome)
    (u : String) (h : pendingInv s) :
    pendingInv (retrieveStep env s oc u).1 := by
  have hpu : pendingInv (pushUser s u) := by simpa [pendingInv, pushUser] using h
  unfold retrieveStep retrieveMain
  simp only []
  repeat' split
  all_goals first
    | exact pendingInv_abort _ _
    | exact pendingInv_cand _ _ _ hpu
    | exact pendingInv_confirm _ _ _ _ hpu
    | exact pendingInv_dispatch _ _ _ hpu
    | simpa [pendingInv, emit, addAssistantTurn, pushUser, pushTranscript] using h

/-- Witness for `pending_inv_preserved` at a concrete session and turn. -/
theorem pending_inv_preserved_witness :
    pendingInv (retrieveStep {}
      { stage := "tl_search",
        current := { awaiting_title_written_confirm := true,
                     pending_tl_candidate := some ⟨"T-1", "Titel"⟩ } }
      (.ok { combined := (.yes, none) }) "ja").1 :=
  pending_inv_preserved {}
    { stage := "tl_search",
      current := { awaiting_title_written_confirm := true,
                   pending_tl_candidate := some ⟨"T-1", "Titel"⟩ } }
    (.ok { combined := (.yes, none) }) "ja" (by intro _; simp)

/-- **C5 (counterexample)** The claimed equivalence fails: on the
combined-confirmation path with `title_match = yes` and `wrote = null`
(lines 1282-1288), the controller clears
`awaiting_title_written_confirm` but leaves `pending_tl_candidate` set,
so afterwards the candidate is non-null while the flag is false. -/
theorem pending_iff_broken_cex :
    (retrieveStep {}
      { stage := "tl_search",
        current := { awaiting_title_written_confirm := true,
                     pending_tl_candidate := some ⟨"T-1", "Titel"⟩ } }
      (.ok { combined := (.yes, none) }) "ja").1.current.pending_tl_candidate
        = some ⟨"T-1", "Titel"⟩
    ∧ (retrieveStep {}
      { stage := "tl_search",
        current := { awaiting_title_written_confirm := true,
                     pending_tl_candidate := some ⟨"T-1", "Titel"⟩ } }
      (.ok { combined := (.yes, none) }) "ja").1.current.awaiting_title_written_confirm
        = false := by
  constructor
  · rfl
  · rfl

end TkcChatbot
